import Mathlib

/-!
# nogo: the HTTP adapter (`http.go`)

A shallow embedding of the request handlers and of the basic-auth middleware
of `http.go`, and the properties of the adapter stated over it.

Conventions of the embedding

* A Go `string` is a sequence of bytes (`GoString`); `len` is the number of
  bytes.
* The global store `db` is not part of `http.go`.  The handlers are embedded
  over an arbitrary store: a record `DB σ` of the six operations acting on an
  explicit store state `σ`.  Every store call a handler makes is appended to
  the trace `Ctx.calls` together with the error it returned.
* `http.ResponseWriter` is a record holding the header map, the status line
  once it has been written (with the headers sent along with it) and the body.
* `log.Printf` appends the format string and its arguments to `Ctx.log`.
* Library functions are embedded by their behaviour: `strings.SplitN`,
  `encoding/base64`, `path.Clean`, `http.Error`, `http.Redirect`, `render.JSON`,
  `render.NoContent`.  `url.Parse`, the index template and the JSON coding of
  records are parameters (`Env`).
-/

namespace Nogo

/-! ## Go strings -/

abbrev Byte := Fin 256

abbrev GoString := List Byte

/-- The Go string literal with the given text (UTF-8 encoded, as Go source is). -/
def str (s : String) : GoString :=
  (s.toList.flatMap String.utf8EncodeChar).map (fun b => b.val)

/-- The byte with value `n` (conversion `byte(n)`: truncation to 8 bits). -/
def byte (n : Nat) : Byte := ⟨n % 256, Nat.mod_lt n (by decide)⟩

/-- Number of characters (Unicode code points) of a UTF-8 encoded string: each
code point is encoded with exactly one byte that is not a continuation byte
`10xxxxxx`. -/
def charCount (s : GoString) : Nat :=
  (s.filter (fun b => b.val / 64 ≠ 2)).length

/-- Whether `s` begins with `p` (the test `strings.Index` makes at each offset). -/
def startsWith : GoString → GoString → Bool
  | _, [] => true
  | [], _ :: _ => false
  | a :: s, b :: p => a == b && startsWith s p

/-- Embedding of `strings.Index`: the offset of the first occurrence of `sep`
in `s`, `none` for Go's `-1`. -/
def Index : GoString → GoString → Option Nat
  | [], sep => if sep = [] then some 0 else none
  | c :: s, sep =>
    if startsWith (c :: s) sep then some 0 else (Index s sep).map (· + 1)

/-- Embedding of `strings.SplitN(s, sep, n)` for a non-empty separator (the only
use in `http.go`): at most `n` pieces, the last one being the unsplit rest. -/
def SplitN (s sep : GoString) : Nat → List GoString
  | 0 => []
  | 1 => [s]
  | n + 2 =>
    match Index s sep with
    | none => [s]
    | some m => s.take m :: SplitN (s.drop (m + sep.length)) sep (n + 1)

/-! ## Errors and logging -/

/-- Go `error` values that the adapter can see.  `errRecordNotFound` is the
store's sentinel, `EOF` is `io.EOF`; the handlers compare against both with
`==`.  Every other error is opaque. -/
inductive GoError
  | errRecordNotFound
  | EOF
  | other (msg : String)
  deriving DecidableEq, Repr

inductive LogArg
  | s (v : GoString)
  | err (e : Option GoError)
  deriving DecidableEq, Repr

/-- One `log.Printf` call: format string and arguments. -/
structure LogEntry where
  format : String
  args : List LogArg
  deriving DecidableEq, Repr

/-! ## `encoding/base64`, `StdEncoding` -/

namespace base64

def encodeStd : GoString :=
  str "ABCDEFGHIJKLMNOPQRSTUVWXYZabcdefghijklmnopqrstuvwxyz0123456789+/"

/-- The padding character `=`. -/
def padChar : Byte := 61

/-- The table `enc.encode`. -/
def encode (v : Nat) : Byte := encodeStd.getD v 0

def indexIn (c : Byte) : GoString → Option Nat
  | [] => none
  | a :: s => if a = c then some 0 else (indexIn c s).map (· + 1)

/-- The table `enc.decodeMap`; `none` stands for the entry `0xff`. -/
def decodeMap (c : Byte) : Option Nat := indexIn c encodeStd

/-- Embedding of `(*Encoding).EncodeToString` for `StdEncoding`: three bytes give
four characters; a rest of one or two bytes is padded with `=`.  The bit fields
of `val` are disjoint, so the shifts and ors are written with `*`, `+`, `/`
and `%`. -/
def EncodeToString : GoString → GoString
  | a :: b :: c :: rest =>
    let val := a.val * 65536 + b.val * 256 + c.val
    encode (val / 262144 % 64) :: encode (val / 4096 % 64) :: encode (val / 64 % 64)
      :: encode (val % 64) :: EncodeToString rest
  | [a, b] =>
    let val := a.val * 65536 + b.val * 256
    [encode (val / 262144 % 64), encode (val / 4096 % 64), encode (val / 64 % 64), padChar]
  | [a] =>
    let val := a.val * 65536
    [encode (val / 262144 % 64), encode (val / 4096 % 64), padChar, padChar]
  | [] => []

def isNewline (c : Byte) : Bool := c = 10 || c = 13

def skipNewlines : GoString → GoString
  | [] => []
  | c :: s => if isNewline c then skipNewlines s else c :: s

/-- The decoding loop of `(*Encoding).Decode` (`decodeQuantum` repeated until
the input is used up).  `dbuf` holds the sextets of the quantum read so far.
`\r` and `\n` are skipped; padding is accepted only to complete the last
quantum and only if nothing but newlines follows; `none` is
`CorruptInputError`. -/
def decodeQuanta : GoString → List Nat → Option GoString
  | [], [] => some []
  | [], _ :: _ => none
  | c :: src, dbuf =>
    match decodeMap c with
    | some v =>
      match dbuf with
      | [d0, d1, d2] =>
        let val := d0 * 262144 + d1 * 4096 + d2 * 64 + v
        (decodeQuanta src []).map
          (fun out => byte (val / 65536) :: byte (val / 256) :: byte val :: out)
      | _ => decodeQuanta src (dbuf ++ [v])
    | none =>
      if isNewline c then decodeQuanta src dbuf
      else if c ≠ padChar then none
      else
        match dbuf with
        | [d0, d1] =>
          match skipNewlines src with
          | [] => none
          | p :: rest =>
            if p = padChar ∧ skipNewlines rest = [] then
              some [byte ((d0 * 262144 + d1 * 4096) / 65536)]
            else none
        | [d0, d1, d2] =>
          let val := d0 * 262144 + d1 * 4096 + d2 * 64
          if skipNewlines src = [] then some [byte (val / 65536), byte (val / 256)]
          else none
        | _ => none

/-- Embedding of `StdEncoding.DecodeString`. -/
def DecodeString (s : GoString) : Except GoError GoString :=
  match decodeQuanta s [] with
  | some b => .ok b
  | none => .error (.other "illegal base64 data")

end base64

/-! ## `path` -/

namespace path

/-- Whether the path element being read ends here: the input is used up or the
next byte is `/`. -/
def elementEnds : GoString → Bool
  | [] => true
  | c :: _ => c = 47

/-- The inner loop of the `..` case of `Clean`: `x` is the byte last dropped from
the buffer, whose remaining bytes are given last byte first; bytes are dropped
until the dropped byte is `/` or the buffer is down to `dotdot` bytes. -/
def backUp (dotdot : Nat) : GoString → Byte → GoString
  | [], _ => []
  | y :: kept, x => if (y :: kept).length > dotdot ∧ x ≠ 47 then backUp dotdot kept y else y :: kept

/-- The `..` case of `Clean` when the buffer is longer than `dotdot`: the last
element and the `/` before it are dropped. -/
def dropElement (out : GoString) (dotdot : Nat) : GoString :=
  match out.reverse with
  | [] => []
  | x :: kept => (backUp dotdot kept x).reverse

/-- The main loop of `Clean` over the unread bytes.  `copying` tells that the
loop is inside a path element that is being copied to the buffer `out`. -/
def cleanLoop (rooted : Bool) : GoString → Bool → GoString → Nat → GoString
  | [], _, out, _ => out
  | c :: t, true, out, dotdot =>
    if c = 47 then cleanLoop rooted t false out dotdot
    else cleanLoop rooted t true (out ++ [c]) dotdot
  | c :: t, false, out, dotdot =>
    if c = 47 then
      -- empty path element
      cleanLoop rooted t false out dotdot
    else if c = 46 ∧ elementEnds t then
      -- . element
      cleanLoop rooted t false out dotdot
    else
      match t with
      | d :: t2 =>
        if c = 46 ∧ d = 46 ∧ elementEnds t2 then
          -- .. element: remove to last /
          if out.length > dotdot then
            cleanLoop rooted t2 false (dropElement out dotdot) dotdot
          else if ¬ rooted then
            let out := (if out.length > 0 then out ++ [47] else out) ++ [46, 46]
            cleanLoop rooted t2 false out out.length
          else
            cleanLoop rooted t2 false out dotdot
        else
          -- real path element: add slash if needed, copy element
          let out := if (rooted ∧ out.length ≠ 1) ∨ (¬ rooted ∧ out.length ≠ 0) then out ++ [47]
            else out
          cleanLoop rooted (d :: t2) true (out ++ [c]) dotdot
      | [] =>
        let out := if (rooted ∧ out.length ≠ 1) ∨ (¬ rooted ∧ out.length ≠ 0) then out ++ [47]
          else out
        out ++ [c]

/-- Embedding of `path.Clean`. -/
def Clean (path : GoString) : GoString :=
  match path with
  | [] => str "."
  | c :: t =>
    let rooted : Bool := c = 47
    let out :=
      if rooted then cleanLoop true t false [47] 1 else cleanLoop false (c :: t) false [] 0
    if out.length = 0 then str "." else out

/-- Embedding of `path.Split`: the path up to and including its last `/`, and
the rest. -/
def Split (path : GoString) : GoString × GoString :=
  let file := (path.reverse.takeWhile (fun b => b ≠ 47)).reverse
  (path.take (path.length - file.length), file)

end path

/-! ## `net/http` -/

/-- A header map, one value per (canonical) name. -/
abbrev Header := List (GoString × GoString)

def Header.Get (h : Header) (key : GoString) : GoString :=
  match h.find? (fun kv => kv.1 = key) with
  | some kv => kv.2
  | none => []

def Header.Set (h : Header) (key value : GoString) : Header :=
  (key, value) :: h.filter (fun kv => kv.1 ≠ key)

structure Request where
  /-- Field `Header`. -/
  Header : Header
  /-- The parsed form; `FormValue` returns the first value of a name. -/
  Form : List (GoString × GoString)
  /-- The URL parameters bound by the chi router. -/
  URLParams : List (GoString × GoString)
  /-- The bytes of `Body`. -/
  Body : GoString
  /-- The path of the request, `r.URL.Path`. -/
  URLPath : GoString
  deriving DecidableEq, Repr

def lookup (kvs : List (GoString × GoString)) (key : GoString) : GoString :=
  match kvs.find? (fun kv => kv.1 = key) with
  | some kv => kv.2
  | none => []

/-- Embedding of `r.FormValue(key)`: `""` when the name is absent. -/
def Request.FormValue (r : Request) (key : GoString) : GoString := lookup r.Form key

/-- Embedding of `chi.URLParam(r, key)`. -/
def URLParam (r : Request) (key : GoString) : GoString := lookup r.URLParams key

/-- The state of an `http.ResponseWriter`. -/
structure ResponseWriter where
  /-- The map returned by `w.Header()`. -/
  header : Header
  /-- Status code and headers sent by the first `WriteHeader`. -/
  wroteHeader : Option (Nat × Header)
  /-- Bytes written to the body. -/
  body : GoString
  deriving DecidableEq, Repr

namespace ResponseWriter

def empty : ResponseWriter := ⟨[], none, []⟩

def setHeader (w : ResponseWriter) (key value : GoString) : ResponseWriter :=
  { w with header := w.header.Set key value }

/-- A second `WriteHeader` is ignored. -/
def WriteHeader (w : ResponseWriter) (code : Nat) : ResponseWriter :=
  match w.wroteHeader with
  | some _ => w
  | none => { w with wroteHeader := some (code, w.header) }

/-- `Write` sends status 200 first if no status has been written. -/
def Write (w : ResponseWriter) (b : GoString) : ResponseWriter :=
  let w := w.WriteHeader 200
  { w with body := w.body ++ b }

/-- The status code of the response (200 if the handler never wrote one). -/
def status (w : ResponseWriter) : Nat :=
  match w.wroteHeader with
  | some (code, _) => code
  | none => 200

/-- The headers of the response as sent. -/
def sent (w : ResponseWriter) : Header :=
  match w.wroteHeader with
  | some (_, h) => h
  | none => w.header

end ResponseWriter

namespace http

/-- Embedding of `http.StatusText` (the codes used by the adapter). -/
def StatusText (code : Nat) : GoString :=
  if code = 200 then str "OK"
  else if code = 204 then str "No Content"
  else if code = 302 then str "Found"
  else if code = 400 then str "Bad Request"
  else if code = 401 then str "Unauthorized"
  else if code = 404 then str "Not Found"
  else if code = 422 then str "Unprocessable Entity"
  else if code = 500 then str "Internal Server Error"
  else []

/-- Embedding of `http.Error`: plain-text headers, the status, the message and a
newline. -/
def Error (w : ResponseWriter) (error : GoString) (code : Nat) : ResponseWriter :=
  let w := w.setHeader (str "Content-Type") (str "text/plain; charset=utf-8")
  let w := w.setHeader (str "X-Content-Type-Options") (str "nosniff")
  (w.WriteHeader code).Write (error ++ str "\n")

/-- The fields of a parsed `url.URL` that `http.Redirect` reads. -/
structure URL where
  Scheme : GoString
  Host : GoString
  deriving DecidableEq, Repr

/-- The digits of `strconv.AppendInt(b, n, 16)`. -/
def hexDigit (n : Nat) : Byte := (str "0123456789abcdef").getD n 0

/-- Embedding of `hexEscapeNonASCII`: every byte from `0x80` on is replaced by
`%` and its two lower-case hexadecimal digits. -/
def hexEscapeNonASCII : GoString → GoString
  | [] => []
  | b :: s =>
    if b.val ≥ 128 then 37 :: hexDigit (b.val / 16) :: hexDigit (b.val % 16) :: hexEscapeNonASCII s
    else b :: hexEscapeNonASCII s

/-- What `http.Redirect` makes of a target that has parsed without scheme and
host: a target that does not begin with `/` is joined to the directory of the
request path, the query (from the first `?` on) is set aside, the path is
cleaned with `path.Clean`, a trailing slash is kept, and the query is put
back. -/
def relativeTarget (oldpath url : GoString) : GoString :=
  let oldpath := if oldpath = [] then str "/" else oldpath
  let url := if url = [] ∨ url.head? ≠ some 47 then (path.Split oldpath).1 ++ url else url
  let cut : GoString × GoString :=
    match Index url (str "?") with
    | some i => (url.take i, url.drop i)
    | none => (url, [])
  let trailing := cut.1.getLast? = some 47
  let cleaned := path.Clean cut.1
  let cleaned := if trailing ∧ cleaned.getLast? ≠ some 47 then cleaned ++ str "/" else cleaned
  cleaned ++ cut.2

/-- The value `http.Redirect` gives the `Location` header.  `parse` is
`url.Parse`; the target is rewritten only if it parses and has neither scheme
nor host. -/
def redirectLocation (parse : GoString → Except GoError URL) (oldpath url : GoString) :
    GoString :=
  let url :=
    match parse url with
    | .ok u => if u.Scheme = [] ∧ u.Host = [] then relativeTarget oldpath url else url
    | .error _ => url
  hexEscapeNonASCII url

/-- Embedding of `http.Redirect(w, r, url, code)` for a request that is neither
GET nor HEAD (no body is written): the `Location` header is set and the status
is written.  `oldpath` is `r.URL.Path`. -/
def Redirect (parse : GoString → Except GoError URL) (w : ResponseWriter)
    (oldpath url : GoString) (code : Nat) : ResponseWriter :=
  (w.setHeader (str "Location") (redirectLocation parse oldpath url)).WriteHeader code

end http

/-! ## Records and the store -/

/-- Modelled from the spec: the declaration of `Record` is not in `http.go`.  A
record has a paused flag (default false) and an opaque payload, kept here in
serialised form (empty when absent). -/
structure Record where
  Paused : Bool
  Data : GoString
  deriving DecidableEq, Repr

/-- The zero value of `Record` (`var data Record`). -/
def Record.zero : Record := ⟨false, []⟩

/-- A value of type `map[string]*Record`; `none` is the nil map. -/
abbrev RecordMap := Option (List (GoString × Record))

/-- The operations of the global `db` used by the adapter, acting on a store
state `σ`.  A `*Record` is an `Option Record` (`none` is nil); an `error` is an
`Option GoError` (`none` is nil). -/
structure DB (σ : Type) where
  get : GoString → σ → (Option Record × Option GoError) × σ
  put : GoString → Option Record → σ → Option GoError × σ
  delete : GoString → σ → Option GoError × σ
  find : GoString → σ → RecordMap × σ
  getPaused : σ → RecordMap × σ
  keyCount : σ → (Int × Option GoError) × σ

inductive StoreCall
  | get (key : GoString)
  | put (key : GoString) (record : Option Record)
  | delete (key : GoString)
  | find (q : GoString)
  | getPaused
  | keyCount
  deriving DecidableEq, Repr

/-- A store call made by a handler and the error it returned. -/
structure StoreEvent where
  call : StoreCall
  err : Option GoError
  deriving DecidableEq, Repr

/-! ## Values rendered by templates and `render.JSON` -/

inductive HValue
  | records (m : RecordMap)
  /-- A map with the single entry `key: rec` (`map[string]*Record{key: rec}`,
  `H{key: data}`). -/
  | keyed (key : GoString) (record : Option Record)
  | int (n : Int)
  | text (s : GoString)
  deriving DecidableEq, Repr

/-- A value of type `H` (`map[string]interface{}`), as the literal lists it. -/
abbrev H := List (GoString × HValue)

/-- A parsed template: `Execute` makes a sequence of `Write`s on the response
and may stop with an error. -/
structure Template where
  Execute : H → List GoString × Option GoError

/-- What the adapter uses and `http.go` does not define. -/
structure Env where
  /-- The result of `template.New("index").Parse(indexTmpl)`. -/
  indexTmpl : Except GoError Template
  /-- The JSON decoding of a request body into a `Record` done by `render.Bind`;
  `io.EOF` is reported when the body holds no value. -/
  decodeRecord : GoString → Except GoError Record
  /-- The JSON encoding done by `render.JSON`. -/
  marshal : H → GoString
  /-- The function `url.Parse`, which `http.Redirect` calls on its target. -/
  urlParse : GoString → Except GoError http.URL

/-! ## Handlers -/

/-- What a handler acts on: the response writer, the state of the store, and
the ghost traces (store calls, log lines, number of times the handler wrapped
by the middleware has been served). -/
structure Ctx (σ : Type) where
  w : ResponseWriter
  db : σ
  calls : List StoreEvent
  log : List LogEntry
  served : Nat

abbrev Handler (σ : Type) := Request → Ctx σ → Ctx σ

namespace Ctx

variable {σ : Type}

/-- The context at the start of a request. -/
def start (s : σ) : Ctx σ := ⟨ResponseWriter.empty, s, [], [], 0⟩

def logPrintf (c : Ctx σ) (format : String) (args : List LogArg) : Ctx σ :=
  { c with log := c.log ++ [⟨format, args⟩] }

/-- Statement `http.Error(w, http.StatusText(code), code)`. -/
def Error (c : Ctx σ) (code : Nat) : Ctx σ :=
  { c with w := http.Error c.w (http.StatusText code) code }

def get (db : DB σ) (key : GoString) (c : Ctx σ) : (Option Record × Option GoError) × Ctx σ :=
  let res := db.get key c.db
  (res.1, { c with db := res.2, calls := c.calls ++ [⟨.get key, res.1.2⟩] })

def put (db : DB σ) (key : GoString) (record : Option Record) (c : Ctx σ) :
    Option GoError × Ctx σ :=
  let res := db.put key record c.db
  (res.1, { c with db := res.2, calls := c.calls ++ [⟨.put key record, res.1⟩] })

def delete (db : DB σ) (key : GoString) (c : Ctx σ) : Option GoError × Ctx σ :=
  let res := db.delete key c.db
  (res.1, { c with db := res.2, calls := c.calls ++ [⟨.delete key, res.1⟩] })

def find (db : DB σ) (q : GoString) (c : Ctx σ) : RecordMap × Ctx σ :=
  let res := db.find q c.db
  (res.1, { c with db := res.2, calls := c.calls ++ [⟨.find q, none⟩] })

def getPaused (db : DB σ) (c : Ctx σ) : RecordMap × Ctx σ :=
  let res := db.getPaused c.db
  (res.1, { c with db := res.2, calls := c.calls ++ [⟨.getPaused, none⟩] })

def keyCount (db : DB σ) (c : Ctx σ) : (Int × Option GoError) × Ctx σ :=
  let res := db.keyCount c.db
  (res.1, { c with db := res.2, calls := c.calls ++ [⟨.keyCount, res.1.2⟩] })

/-- The `Write`s made by `tmpl.Execute`. -/
def writeAll (c : Ctx σ) (chunks : List GoString) : Ctx σ :=
  { c with w := chunks.foldl ResponseWriter.Write c.w }

end Ctx

namespace render

/-- Embedding of `render.JSON`: content type, status 200, the encoded value. -/
def JSON (env : Env) (w : ResponseWriter) (v : H) : ResponseWriter :=
  let w := w.setHeader (str "Content-Type") (str "application/json; charset=utf-8")
  (w.WriteHeader 200).Write (env.marshal v)

/-- Embedding of `render.Bind(r.Body, &data)`: the record decoded from the body
is stored in `data`; on an error `data` is left as it was (only the `io.EOF`
case, reported before anything is decoded, lets the handler go on to use it). -/
def Bind (env : Env) (body : GoString) (data : Record) : Record × Option GoError :=
  match env.decodeRecord body with
  | .ok record => (record, none)
  | .error err => (data, some err)

/-- Embedding of `render.NoContent`. -/
def NoContent (w : ResponseWriter) : ResponseWriter := w.WriteHeader 204

end render

variable {σ : Type}

/-- HTTP basic auth middleware. -/
def basicAuth (password : GoString) (next : Handler σ) : Handler σ := fun r c =>
  let c := { c with w := c.w.setHeader (str "WWW-Authenticate") (str "Basic realm=\"Restricted\"") }
  let s := SplitN (r.Header.Get (str "Authorization")) (str " ") 2
  if s.length ≠ 2 then
    c.Error 401
  else
    match base64.DecodeString (s.getD 1 []) with
    | .error err =>
      (c.logPrintf "base64.StdEncoding.DecodeString() Error: %s\n" [.err (some err)]).Error 401
    | .ok b =>
      let pair := SplitN b (str ":") 2
      if pair.length ≠ 2 then
        (c.logPrintf "strings.SplitN() Error: %s\n" [.err none]).Error 401
      else if pair.getD 0 [] ≠ str "admin" ∨ pair.getD 1 [] ≠ password then
        c.Error 401
      else
        next r { c with served := c.served + 1 }

/-- The second half of `rootIndexHandler` (from the call of `db.keyCount` to the
end), which every path that has not answered 422 runs with the `data` it has
chosen. -/
def rootIndexHandler.page (env : Env) (db : DB σ) (q p : GoString) (data : RecordMap)
    (c : Ctx σ) : Ctx σ :=
  let (res, c) := c.keyCount db
  match res.2 with
  | some err => (c.logPrintf "db.keyCount() Error: %s\n" [.err (some err)]).Error 500
  | none =>
    match env.indexTmpl with
    | .error err => (c.logPrintf "template.ParseFiles() Error: %s\n" [.err (some err)]).Error 500
    | .ok tmpl =>
      let out := tmpl.Execute
        [(str "data", .records data), (str "total_count", .int res.1), (str "q", .text q),
          (str "p", .text p)]
      let c := c.writeAll out.1
      match out.2 with
      | some err => (c.logPrintf "tmpl.Execute() Error: %s\n" [.err (some err)]).Error 500
      | none => c

/-- Handler of `GET /` (root index). -/
def rootIndexHandler (env : Env) (db : DB σ) : Handler σ := fun r c =>
  let q := r.FormValue (str "q")
  let p := r.FormValue (str "p")
  if q ≠ [] then
    if q.length ≥ 3 then
      let (data, c) := c.find db q
      rootIndexHandler.page env db q p data c
    else
      c.Error 422
  else if p = str "1" then
    let (data, c) := c.getPaused db
    rootIndexHandler.page env db q p data c
  else
    rootIndexHandler.page env db q p none c

/-- Handler of `POST /`. -/
def rootCreateHandler (env : Env) (db : DB σ) : Handler σ := fun r c =>
  let key := r.FormValue (str "key")
  if key.length < 4 then
    c.Error 422
  else
    let p := r.FormValue (str "paused")
    let record : Option Record := if p = str "1" then some ⟨true, []⟩ else none
    let (err, c) := c.put db key record
    match err with
    | some err =>
      (c.logPrintf "db.put(%s) Error: %s\n" [.s key, .err (some err)]).Error 500
    | none =>
      { c with w := http.Redirect env.urlParse c.w r.URLPath (str "/" ++ key) 302 }

/-- The second half of `rootReadHandler` (from `data := ...` to the end), run
when `db.get` has returned no error. -/
def rootReadHandler.page (env : Env) (db : DB σ) (key : GoString) (record : Option Record)
    (c : Ctx σ) : Ctx σ :=
  let data := HValue.keyed key record
  let (res, c) := c.keyCount db
  match res.2 with
  | some err => (c.logPrintf "db.keyCount() Error: %s\n" [.err (some err)]).Error 500
  | none =>
    match env.indexTmpl with
    | .error err => (c.logPrintf "template.ParseFiles() Error: %s\n" [.err (some err)]).Error 500
    | .ok tmpl =>
      let out := tmpl.Execute [(str "data", data), (str "total_count", .int res.1)]
      let c := c.writeAll out.1
      match out.2 with
      | some err => (c.logPrintf "tmpl.Execute() Error: %s\n" [.err (some err)]).Error 500
      | none => c

/-- Handler of `GET /:key`. -/
def rootReadHandler (env : Env) (db : DB σ) : Handler σ := fun r c =>
  let key := URLParam r (str "key")
  let (res, c) := c.get db key
  if res.2 = some .errRecordNotFound then
    c.Error 404
  else
    match res.2 with
    | some err =>
      (c.logPrintf "db.get(%s) Error: %s\n" [.s key, .err (some err)]).Error 500
    | none =>
      rootReadHandler.page env db key res.1 c

/-- Handler of `GET /api/`. -/
def apiIndexHandler (env : Env) (db : DB σ) : Handler σ := fun r c =>
  let q := r.FormValue (str "q")
  let p := r.FormValue (str "p")
  if q.length ≥ 3 then
    let (data, c) := c.find db q
    { c with w := render.JSON env c.w [(str "data", .records data)] }
  else if p = str "1" then
    let (data, c) := c.getPaused db
    { c with w := render.JSON env c.w [(str "data", .records data)] }
  else
    c.Error 422

/-- Handler of `GET /api/:key`. -/
def apiReadHandler (env : Env) (db : DB σ) : Handler σ := fun r c =>
  let key := URLParam r (str "key")
  let (res, c) := c.get db key
  if res.2 = some .errRecordNotFound then
    c.Error 404
  else
    match res.2 with
    | some err =>
      (c.logPrintf "db.get(%s) Error: %s\n" [.s key, .err (some err)]).Error 500
    | none =>
      { c with w := render.JSON env c.w [(str "data", .keyed key res.1)] }

/-- Handler of `PUT /api/:key`. -/
def apiPutHandler (env : Env) (db : DB σ) : Handler σ := fun r c =>
  let key := URLParam r (str "key")
  if key.length < 4 then
    c.Error 422
  else
    let bound := render.Bind env r.Body Record.zero
    let data := bound.1
    if bound.2 ≠ none ∧ bound.2 ≠ some .EOF then
      (c.logPrintf "render.Bind() Error: %s\n" [.err bound.2]).Error 400
    else
      let (err, c) := c.put db key (some data)
      match err with
      | some err =>
        (c.logPrintf "db.put(%s) Error: %s\n" [.s key, .err (some err)]).Error 500
      | none =>
        { c with w := render.JSON env c.w [(str "data", .keyed key (some data))] }

/-- Handler of `DELETE /api/:key`. -/
def apiDeleteHandler (db : DB σ) : Handler σ := fun r c =>
  let key := URLParam r (str "key")
  let (err, c) := c.delete db key
  match err with
  | some err =>
    (c.logPrintf "db.delete(%s) Error: %s\n" [.s key, .err (some err)]).Error 500
  | none =>
    { c with w := render.NoContent c.w }

/-! ## Stores and collaborators used to run the handlers on concrete requests -/

/-- Whether `sub` occurs in `s`. -/
def contains (s sub : GoString) : Bool := (Index s sub).isSome

/-- Modelled from the spec: the store behind `db` is not in `http.go`.  An
in-memory store with the six operations of the specification: exact lookup,
full overwrite (a missing record payload stores the default record),
idempotent delete, key-substring search, the paused filter and the key count.
None of its operations fails except `get` on an absent key. -/
def memDB : DB (List (GoString × Record)) where
  get := fun key s =>
    match s.find? (fun kv => kv.1 = key) with
    | some kv => ((some kv.2, none), s)
    | none => ((none, some .errRecordNotFound), s)
  put := fun key record s =>
    (none, (key, record.getD Record.zero) :: s.filter (fun kv => kv.1 ≠ key))
  delete := fun key s => (none, s.filter (fun kv => kv.1 ≠ key))
  find := fun q s => (some (s.filter (fun kv => contains kv.1 q)), s)
  getPaused := fun s => (some (s.filter (fun kv => kv.2.Paused)), s)
  keyCount := fun s => ((s.length, none), s)

/-- A store every fallible operation of which reports an input/output failure. -/
def brokenDB : DB Unit where
  get := fun _ s => ((none, some (.other "i/o")), s)
  put := fun _ _ s => (some (.other "i/o"), s)
  delete := fun _ s => (some (.other "i/o"), s)
  find := fun _ s => (none, s)
  getPaused := fun s => (none, s)
  keyCount := fun s => ((0, some (.other "i/o")), s)

/-- Collaborators for concrete runs: a template that writes one chunk, a decoder
that accepts an empty JSON object (the default record), reports `io.EOF` on an
empty body and rejects everything else, a constant encoder, and a URL parser
that finds neither scheme nor host (as `url.Parse` does for a target that
begins with a single `/` and holds no control byte and no `%`). -/
def plainEnv : Env where
  indexTmpl := .ok ⟨fun _ => ([str "<html>"], none)⟩
  decodeRecord := fun body =>
    if body = [] then .error .EOF
    else if body = str "\x7b\x7d" then .ok Record.zero
    else .error (.other "invalid character")
  marshal := fun _ => str "json"
  urlParse := fun _ => .ok ⟨[], []⟩

/-- A request carrying only form values. -/
def formRequest (form : List (GoString × GoString)) : Request :=
  ⟨[], form, [], [], str "/"⟩

/-- A request to a `/:key` route with the given body. -/
def keyRequest (key body : GoString) : Request :=
  ⟨[], [], [(str "key", key)], body, str "/" ++ key⟩

/-- A request with the given `Authorization` header. -/
def authRequest (authorization : GoString) : Request :=
  ⟨[(str "Authorization", authorization)], [], [], [], str "/"⟩

/-- A wrapped handler that answers 204. -/
def noContentHandler : Handler Unit := fun _ c => { c with w := render.NoContent c.w }

/-! ## Lemmas on the response writer and the context -/

namespace ResponseWriter

@[simp]
theorem setHeader_wroteHeader (w : ResponseWriter) (k v : GoString) :
    (w.setHeader k v).wroteHeader = w.wroteHeader := rfl

theorem WriteHeader_fresh (w : ResponseWriter) (code : Nat) (h : w.wroteHeader = none) :
    (w.WriteHeader code).wroteHeader = some (code, w.header) := by
  simp [WriteHeader, h]

theorem Write_wroteHeader_of_some (w : ResponseWriter) (b : GoString) (x : Nat × Header)
    (h : w.wroteHeader = some x) : (w.Write b).wroteHeader = some x := by
  simp [Write, WriteHeader, h]

theorem Write_fresh (w : ResponseWriter) (b : GoString) (h : w.wroteHeader = none) :
    (w.Write b).wroteHeader = some (200, w.header) := by
  simp [Write, WriteHeader, h]

theorem foldl_Write_of_some (chunks : List GoString) (w : ResponseWriter) (x : Nat × Header)
    (h : w.wroteHeader = some x) : (chunks.foldl Write w).wroteHeader = some x := by
  induction chunks generalizing w with
  | nil => simpa using h
  | cons b bs ih => exact ih _ (Write_wroteHeader_of_some w b x h)

/-- After the writes of a template on a fresh response the status is 200 or still unwritten. -/
theorem foldl_Write_fresh (chunks : List GoString) (w : ResponseWriter) (h : w.wroteHeader = none) :
    (chunks.foldl Write w).wroteHeader = none ∨
      (chunks.foldl Write w).wroteHeader = some (200, w.header) := by
  cases chunks with
  | nil => left; simpa using h
  | cons b bs => right; exact foldl_Write_of_some bs _ _ (Write_fresh w b h)

theorem foldl_Write_status (chunks : List GoString) (w : ResponseWriter) (h : w.wroteHeader = none) :
    (chunks.foldl Write w).status = 200 := by
  rcases foldl_Write_fresh chunks w h with h1 | h1 <;> simp [status, h1]

end ResponseWriter

theorem http.Error_wroteHeader (w : ResponseWriter) (msg : GoString) (code : Nat)
    (h : w.wroteHeader = none) :
    (http.Error w msg code).wroteHeader = some (code,
      (w.header.Set (str "Content-Type") (str "text/plain; charset=utf-8")).Set
        (str "X-Content-Type-Options") (str "nosniff")) := by
  simp [http.Error, ResponseWriter.Write, ResponseWriter.WriteHeader, ResponseWriter.setHeader, h]

theorem http.Error_status (w : ResponseWriter) (msg : GoString) (code : Nat)
    (h : w.wroteHeader = none) : (http.Error w msg code).status = code := by
  simp [ResponseWriter.status, http.Error_wroteHeader w msg code h]

theorem http.Error_status_of_some (w : ResponseWriter) (msg : GoString) (code : Nat)
    (x : Nat × Header) (h : w.wroteHeader = some x) : (http.Error w msg code).status = x.1 := by
  simp [ResponseWriter.status, http.Error, ResponseWriter.Write, ResponseWriter.WriteHeader, ResponseWriter.setHeader, h]

namespace Ctx
variable {σ : Type}
@[simp]
theorem Error_calls (c : Ctx σ) (code : Nat) : (c.Error code).calls = c.calls := rfl
@[simp]
theorem Error_db (c : Ctx σ) (code : Nat) : (c.Error code).db = c.db := rfl
@[simp]
theorem Error_served (c : Ctx σ) (code : Nat) : (c.Error code).served = c.served := rfl
@[simp]
theorem Error_w (c : Ctx σ) (code : Nat) :
    (c.Error code).w = http.Error c.w (http.StatusText code) code := rfl
@[simp]
theorem logPrintf_calls (c : Ctx σ) (f : String) (a : List LogArg) :
    (c.logPrintf f a).calls = c.calls := rfl
@[simp]
theorem logPrintf_w (c : Ctx σ) (f : String) (a : List LogArg) :
    (c.logPrintf f a).w = c.w := rfl
@[simp]
theorem logPrintf_db (c : Ctx σ) (f : String) (a : List LogArg) :
    (c.logPrintf f a).db = c.db := rfl
@[simp]
theorem logPrintf_served (c : Ctx σ) (f : String) (a : List LogArg) :
    (c.logPrintf f a).served = c.served := rfl
end Ctx

namespace Ctx
variable {σ : Type}
@[simp]
theorem writeAll_calls (c : Ctx σ) (l : List GoString) : (c.writeAll l).calls = c.calls := rfl
@[simp]
theorem writeAll_db (c : Ctx σ) (l : List GoString) : (c.writeAll l).db = c.db := rfl
@[simp]
theorem writeAll_w (c : Ctx σ) (l : List GoString) :
    (c.writeAll l).w = l.foldl ResponseWriter.Write c.w := rfl
end Ctx

theorem indexPage_calls (env : Env) (db : DB σ) (q p : GoString) (data : RecordMap)
    (c : Ctx σ) :
    (rootIndexHandler.page env db q p data c).calls
      = c.calls ++ [⟨.keyCount, (db.keyCount c.db).1.2⟩] := by
  simp only [rootIndexHandler.page, Ctx.keyCount]
  split
  · simp
  · split
    · simp
    · split <;> simp

theorem indexPage_status (env : Env) (db : DB σ) (q p : GoString) (data : RecordMap)
    (c : Ctx σ) (hw : c.w.wroteHeader = none) :
    (rootIndexHandler.page env db q p data c).w.status = 200 ∨
      (rootIndexHandler.page env db q p data c).w.status = 500 := by
  simp only [rootIndexHandler.page, Ctx.keyCount]
  split
  · right; simp [http.Error_status _ _ _ hw]
  · split
    · right; simp [http.Error_status _ _ _ hw]
    · rename_i tmpl _
      split
      · simp only [Ctx.Error_w, Ctx.logPrintf_w, Ctx.writeAll_w]
        rcases ResponseWriter.foldl_Write_fresh (tmpl.Execute _).1 c.w hw with h | h
        · right; exact http.Error_status _ _ _ h
        · left; exact http.Error_status_of_some _ _ _ _ h
      · left; simp only [Ctx.writeAll_w]; exact ResponseWriter.foldl_Write_status _ _ hw

theorem indexPage_error (env : Env) (db : DB σ) (q p : GoString) (data : RecordMap)
    (c : Ctx σ) (hw : c.w.wroteHeader = none) (e : GoError)
    (he : (db.keyCount c.db).1.2 = some e) :
    (rootIndexHandler.page env db q p data c).w.status = 500 := by
  simp [rootIndexHandler.page, Ctx.keyCount, he, http.Error_status _ _ _ hw]

theorem indexPage_rendered (env : Env) (db : DB σ) (q p : GoString)
    (data : RecordMap) (c : Ctx σ) (hw : c.w.wroteHeader = none)
    (hk : (db.keyCount c.db).1.2 = none) (tmpl : Template) (ht : env.indexTmpl = .ok tmpl)
    (hx : (tmpl.Execute [(str "data", .records data),
      (str "total_count", .int (db.keyCount c.db).1.1), (str "q", .text q),
      (str "p", .text p)]).2 = none) :
    (rootIndexHandler.page env db q p data c).w.status = 200 ∧
    (rootIndexHandler.page env db q p data c).w
      = (tmpl.Execute [(str "data", .records data),
          (str "total_count", .int (db.keyCount c.db).1.1), (str "q", .text q),
          (str "p", .text p)]).1.foldl ResponseWriter.Write c.w := by
  simp [rootIndexHandler.page, Ctx.keyCount, hk, ht, hx, ResponseWriter.foldl_Write_status _ _ hw]

theorem render.JSON_fresh (env : Env) (w : ResponseWriter) (v : H) (hw : w.wroteHeader = none) :
    (render.JSON env w v).status = 200 ∧ (render.JSON env w v).body = w.body ++ env.marshal v := by
  simp [render.JSON, ResponseWriter.Write, ResponseWriter.WriteHeader, ResponseWriter.setHeader,
    ResponseWriter.status, hw]

/-! ## Case lemmas, one handler at a time -/

theorem rootIndexHandler_short (env : Env) (db : DB σ) (r : Request) (c : Ctx σ)
    (hw : c.w.wroteHeader = none) (h1 : r.FormValue (str "q") ≠ [])
    (h2 : (r.FormValue (str "q")).length < 3) :
    (rootIndexHandler env db r c).w.status = 422 ∧ (rootIndexHandler env db r c).calls = c.calls ∧
      (rootIndexHandler env db r c).db = c.db := by
  have h3 : ¬ (r.FormValue (str "q")).length ≥ 3 := by omega
  simp [rootIndexHandler, h1, h3, http.Error_status _ _ _ hw]

/-- Every request not answered 422 by `rootIndexHandler` runs the second half of
the handler, after zero or one data query. -/
theorem rootIndexHandler_page (env : Env) (db : DB σ) (r : Request) (c : Ctx σ)
    (h : ¬ (r.FormValue (str "q") ≠ [] ∧ (r.FormValue (str "q")).length < 3)) :
    ∃ data c1, c1.w = c.w ∧
      rootIndexHandler env db r c
        = rootIndexHandler.page env db (r.FormValue (str "q")) (r.FormValue (str "p")) data c1 ∧
      c1.calls = c.calls ++
        (if 3 ≤ (r.FormValue (str "q")).length then [⟨.find (r.FormValue (str "q")), none⟩]
         else if r.FormValue (str "p") = str "1" then [⟨.getPaused, none⟩] else []) := by
  by_cases h0 : r.FormValue (str "q") = []
  · have h3 : ¬ 3 ≤ (r.FormValue (str "q")).length := by simp [h0]
    by_cases h2 : r.FormValue (str "p") = str "1"
    · exact ⟨(db.getPaused c.db).1, (c.getPaused db).2, rfl, by
        simp [rootIndexHandler, h0, h2, Ctx.getPaused], by simp [h0, h2, Ctx.getPaused]⟩
    · exact ⟨none, c, rfl, by simp [rootIndexHandler, h0, h2], by simp [h0, h2]⟩
  · have h3 : (r.FormValue (str "q")).length ≥ 3 := by
      by_contra h4; exact h ⟨h0, by omega⟩
    exact ⟨(db.find (r.FormValue (str "q")) c.db).1, (c.find db (r.FormValue (str "q"))).2, rfl,
      by simp [rootIndexHandler, h0, h3, Ctx.find], by
        have h3' : 3 ≤ (r.FormValue (str "q")).length := h3
        simp [h3', Ctx.find]⟩

theorem rootCreateHandler_short (env : Env) (db : DB σ) (r : Request) (c : Ctx σ)
    (hw : c.w.wroteHeader = none) (h : (r.FormValue (str "key")).length < 4) :
    (rootCreateHandler env db r c).w.status = 422 ∧ (rootCreateHandler env db r c).calls = c.calls ∧
      (rootCreateHandler env db r c).db = c.db := by
  simp [rootCreateHandler, h, http.Error_status _ _ _ hw]

theorem rootCreateHandler_long (env : Env) (db : DB σ) (r : Request) (c : Ctx σ)
    (hw : c.w.wroteHeader = none) (h : 4 ≤ (r.FormValue (str "key")).length) :
    ∃ record err, (rootCreateHandler env db r c).calls
        = c.calls ++ [⟨.put (r.FormValue (str "key")) record, err⟩] ∧
      (err = none → (rootCreateHandler env db r c).w.status = 302) ∧
      (err ≠ none → (rootCreateHandler env db r c).w.status = 500) := by
  have hk : ¬ (r.FormValue (str "key")).length < 4 := by omega
  refine ⟨if r.FormValue (str "paused") = str "1" then some ⟨true, []⟩ else none,
    (db.put (r.FormValue (str "key"))
      (if r.FormValue (str "paused") = str "1" then some ⟨true, []⟩ else none) c.db).1, ?_⟩
  simp only [rootCreateHandler, hk, if_false, Ctx.put]
  cases he : (db.put (r.FormValue (str "key"))
      (if r.FormValue (str "paused") = str "1" then some ⟨true, []⟩ else none) c.db).1 with
  | none =>
    simp [he, http.Redirect, ResponseWriter.WriteHeader, hw, ResponseWriter.status,
      ResponseWriter.setHeader]
  | some e => simp [he, http.Error_status _ _ _ hw]

theorem readPage_calls (env : Env) (db : DB σ) (key : GoString)
    (record : Option Record) (c : Ctx σ) :
    (rootReadHandler.page env db key record c).calls
      = c.calls ++ [⟨.keyCount, (db.keyCount c.db).1.2⟩] := by
  simp only [rootReadHandler.page, Ctx.keyCount]
  split
  · simp
  · split
    · simp
    · split <;> simp

theorem readPage_status (env : Env) (db : DB σ) (key : GoString)
    (record : Option Record) (c : Ctx σ) (hw : c.w.wroteHeader = none) :
    (rootReadHandler.page env db key record c).w.status = 200 ∨
      (rootReadHandler.page env db key record c).w.status = 500 := by
  simp only [rootReadHandler.page, Ctx.keyCount]
  split
  · right; simp [http.Error_status _ _ _ hw]
  · split
    · right; simp [http.Error_status _ _ _ hw]
    · rename_i tmpl _
      split
      · simp only [Ctx.Error_w, Ctx.logPrintf_w, Ctx.writeAll_w]
        rcases ResponseWriter.foldl_Write_fresh (tmpl.Execute _).1 c.w hw with h | h
        · right; exact http.Error_status _ _ _ h
        · left; exact http.Error_status_of_some _ _ _ _ h
      · left; simp only [Ctx.writeAll_w]; exact ResponseWriter.foldl_Write_status _ _ hw

theorem readPage_error (env : Env) (db : DB σ) (key : GoString)
    (record : Option Record) (c : Ctx σ) (hw : c.w.wroteHeader = none) (e : GoError)
    (he : (db.keyCount c.db).1.2 = some e) :
    (rootReadHandler.page env db key record c).w.status = 500 := by
  simp [rootReadHandler.page, Ctx.keyCount, he, http.Error_status _ _ _ hw]

theorem rootReadHandler_cases (env : Env) (db : DB σ) (r : Request) (c : Ctx σ)
    (hw : c.w.wroteHeader = none) :
    let key := URLParam r (str "key")
    let out := rootReadHandler env db r c
    let err := (db.get key c.db).1.2
    let err2 := (db.keyCount (db.get key c.db).2).1.2
    (err = some .errRecordNotFound → out.w.status = 404 ∧ out.calls = c.calls ++ [⟨.get key, err⟩]) ∧
    (err ≠ none → err ≠ some .errRecordNotFound →
      out.w.status = 500 ∧ out.calls = c.calls ++ [⟨.get key, err⟩]) ∧
    (err = none → out.calls = c.calls ++ [⟨.get key, none⟩, ⟨.keyCount, err2⟩] ∧
      (err2 ≠ none → out.w.status = 500) ∧ (out.w.status = 200 ∨ out.w.status = 500)) := by
  intro key out err err2
  refine ⟨?_, ?_, ?_⟩
  · intro h
    simp only [err, key] at h
    simp [out, rootReadHandler, Ctx.get, h, http.Error_status _ _ _ hw, err, key]
  · intro h1 h2
    simp only [err, key] at h1 h2
    simp only [out, rootReadHandler, Ctx.get, h2, if_false]
    cases he : (db.get (URLParam r (str "key")) c.db).1.2 with
    | none => exact absurd he h1
    | some e => simp [http.Error_status _ _ _ hw, err, key, he]
  · intro h
    simp only [err, key] at h
    have ho : out = rootReadHandler.page env db key (db.get key c.db).1.1 (c.get db key).2 := by
      simp [out, rootReadHandler, Ctx.get, h, key]
    rw [ho]
    refine ⟨?_, ?_, ?_⟩
    · rw [readPage_calls]; simp [Ctx.get, h, key, err2]
    · intro h2
      cases he : err2 with
      | none => exact absurd he h2
      | some e => exact readPage_error env db key _ _ hw e he
    · exact readPage_status env db key _ _ hw

theorem apiIndexHandler_cases (env : Env) (db : DB σ) (r : Request) (c : Ctx σ)
    (hw : c.w.wroteHeader = none) :
    let q := r.FormValue (str "q")
    let p := r.FormValue (str "p")
    let out := apiIndexHandler env db r c
    (3 ≤ q.length → out.w.status = 200 ∧ out.calls = c.calls ++ [⟨.find q, none⟩]) ∧
    (q.length < 3 → p = str "1" → out.w.status = 200 ∧ out.calls = c.calls ++ [⟨.getPaused, none⟩]) ∧
    (q.length < 3 → p ≠ str "1" → out.w.status = 422 ∧ out.calls = c.calls ∧ out.db = c.db) := by
  intro q p out
  refine ⟨?_, ?_, ?_⟩
  · intro h1
    have h3 : (r.FormValue (str "q")).length ≥ 3 := h1
    have := render.JSON_fresh env c.w [(str "data", .records (db.find q c.db).1)] hw
    simp [out, apiIndexHandler, h3, Ctx.find, q, this]
  · intro h1 h2
    have h3 : ¬ (r.FormValue (str "q")).length ≥ 3 := by simp only [q] at h1; omega
    simp only [p] at h2
    have := render.JSON_fresh env c.w [(str "data", .records (db.getPaused c.db).1)] hw
    simp [out, apiIndexHandler, h3, h2, Ctx.getPaused, this]
  · intro h1 h2
    have h3 : ¬ (r.FormValue (str "q")).length ≥ 3 := by simp only [q] at h1; omega
    simp only [p] at h2
    simp [out, apiIndexHandler, h3, h2, http.Error_status _ _ _ hw]

theorem apiReadHandler_cases (env : Env) (db : DB σ) (r : Request) (c : Ctx σ)
    (hw : c.w.wroteHeader = none) :
    let key := URLParam r (str "key")
    let out := apiReadHandler env db r c
    let err := (db.get key c.db).1.2
    out.calls = c.calls ++ [⟨.get key, err⟩] ∧
    (err = some .errRecordNotFound → out.w.status = 404) ∧
    (err ≠ none → err ≠ some .errRecordNotFound → out.w.status = 500) ∧
    (err = none → out.w.status = 200) := by
  intro key out err
  refine ⟨?_, ?_, ?_, ?_⟩
  · simp only [out, apiReadHandler, Ctx.get]
    split
    · simp [err, key]
    · split <;> simp [err, key]
  · intro h
    simp only [err, key] at h
    simp [out, apiReadHandler, Ctx.get, h, http.Error_status _ _ _ hw]
  · intro h1 h2
    simp only [err, key] at h1 h2
    simp only [out, apiReadHandler, Ctx.get, h2, if_false]
    cases he : (db.get (URLParam r (str "key")) c.db).1.2 with
    | none => exact absurd he h1
    | some e => simp [http.Error_status _ _ _ hw]
  · intro h
    simp only [err, key] at h
    have := render.JSON_fresh env c.w
      [(str "data", .keyed (URLParam r (str "key")) (db.get (URLParam r (str "key")) c.db).1.1)] hw
    simp [out, apiReadHandler, Ctx.get, h, this]

theorem apiPutHandler_short (env : Env) (db : DB σ) (r : Request) (c : Ctx σ)
    (hw : c.w.wroteHeader = none) (h : (URLParam r (str "key")).length < 4) :
    (apiPutHandler env db r c).w.status = 422 ∧ (apiPutHandler env db r c).calls = c.calls ∧
      (apiPutHandler env db r c).db = c.db := by
  simp [apiPutHandler, h, http.Error_status _ _ _ hw]

theorem apiPutHandler_long (env : Env) (db : DB σ) (r : Request) (c : Ctx σ)
    (hw : c.w.wroteHeader = none) (h : 4 ≤ (URLParam r (str "key")).length) :
    ((apiPutHandler env db r c).w.status = 400 ∧ (apiPutHandler env db r c).calls = c.calls ∧
      (apiPutHandler env db r c).db = c.db) ∨
    ∃ record err, (apiPutHandler env db r c).calls
        = c.calls ++ [⟨.put (URLParam r (str "key")) record, err⟩] ∧
      (err = none → (apiPutHandler env db r c).w.status = 200) ∧
      (err ≠ none → (apiPutHandler env db r c).w.status = 500) := by
  have hk : ¬ (URLParam r (str "key")).length < 4 := by omega
  by_cases hb : (render.Bind env r.Body Record.zero).2 ≠ none ∧
      (render.Bind env r.Body Record.zero).2 ≠ some .EOF
  · left
    simp [apiPutHandler, hk, hb, http.Error_status _ _ _ hw]
  · right
    refine ⟨some (render.Bind env r.Body Record.zero).1,
      (db.put (URLParam r (str "key")) (some (render.Bind env r.Body Record.zero).1) c.db).1, ?_⟩
    simp only [apiPutHandler, hk, if_false, hb, Ctx.put]
    cases he : (db.put (URLParam r (str "key"))
        (some (render.Bind env r.Body Record.zero).1) c.db).1 with
    | none =>
      have := render.JSON_fresh env c.w [(str "data", .keyed (URLParam r (str "key"))
        (some (render.Bind env r.Body Record.zero).1))] hw
      simp [he, this]
    | some e => simp [he, http.Error_status _ _ _ hw]

theorem apiDeleteHandler_cases (db : DB σ) (r : Request) (c : Ctx σ)
    (hw : c.w.wroteHeader = none) :
    let key := URLParam r (str "key")
    let out := apiDeleteHandler db r c
    let err := (db.delete key c.db).1
    out.calls = c.calls ++ [⟨.delete key, err⟩] ∧
    (err ≠ none → out.w.status = 500) ∧ (err = none → out.w.status = 204) := by
  intro key out err
  simp only [out, apiDeleteHandler, Ctx.delete, err, key]
  cases he : (db.delete (URLParam r (str "key")) c.db).1 with
  | none => simp [render.NoContent, ResponseWriter.WriteHeader, hw, ResponseWriter.status]
  | some e => simp [http.Error_status _ _ _ hw]

/-! ## `strings.SplitN` at a one-byte separator -/

theorem startsWith_nil (s : GoString) : startsWith s [] = true := by
  cases s <;> rfl

theorem startsWith_single (s : GoString) (x : Byte) :
    startsWith s [x] = true ↔ ∃ t, s = x :: t := by
  cases s with
  | nil => simp [startsWith]
  | cons a t =>
    simp only [startsWith, startsWith_nil, Bool.and_true, beq_iff_eq]
    constructor
    · rintro rfl; exact ⟨t, rfl⟩
    · rintro ⟨u, hu⟩; exact (List.cons.inj hu).1

theorem Index_single_append (a b : GoString) (x : Byte) (h : x ∉ a) :
    Index (a ++ x :: b) [x] = some a.length := by
  induction a with
  | nil =>
    have : startsWith (x :: b) [x] = true := (startsWith_single _ _).2 ⟨b, rfl⟩
    simp [Index, this]
  | cons y a ih =>
    have hy : x ≠ y := fun e => h (by simp [e])
    have ha : x ∉ a := fun e => h (by simp [e])
    have : ¬ startsWith (y :: (a ++ x :: b)) [x] = true := by
      rw [startsWith_single]
      rintro ⟨t, ht⟩
      exact hy (List.cons.inj ht).1.symm
    simp [Index, this, ih ha]

theorem Index_single_some (s : GoString) (x : Byte) (m : Nat) (h : Index s [x] = some m) :
    ∃ a b, s = a ++ x :: b ∧ x ∉ a ∧ a.length = m := by
  induction s generalizing m with
  | nil => simp [Index] at h
  | cons y s ih =>
    by_cases hs : startsWith (y :: s) [x] = true
    · obtain ⟨t, ht⟩ := (startsWith_single _ _).1 hs
      simp only [Index, hs, if_true, Option.some.injEq] at h
      exact ⟨[], t, by simpa using ht, by simp, by simpa using h⟩
    · simp only [Index, hs, Bool.false_eq_true, if_false, Option.map_eq_some'] at h
      obtain ⟨k, hk, rfl⟩ := h
      obtain ⟨a, b, rfl, hx, hl⟩ := ih k hk
      have hy : x ≠ y := by
        intro e
        exact hs ((startsWith_single _ _).2 ⟨a ++ x :: b, by rw [e]⟩)
      exact ⟨y :: a, b, rfl, by simp [hy, hx], by simp [hl]⟩

theorem SplitN_two_of_append (a b : GoString) (x : Byte) (h : x ∉ a) :
    SplitN (a ++ x :: b) [x] 2 = [a, b] := by
  simp [SplitN, Index_single_append a b x h]

theorem SplitN_two_length (s : GoString) (x : Byte) (h : (SplitN s [x] 2).length = 2) :
    ∃ a b, s = a ++ x :: b ∧ x ∉ a ∧ SplitN s [x] 2 = [a, b] := by
  cases hi : Index s [x] with
  | none => simp [SplitN, hi] at h
  | some m =>
    obtain ⟨a, b, rfl, hx, _⟩ := Index_single_some s x m hi
    exact ⟨a, b, rfl, hx, SplitN_two_of_append a b x hx⟩

/-! ## `encoding/base64`: decoding undoes encoding -/

namespace base64

theorem decodeMap_encode (v : Nat) (h : v < 64) : decodeMap (encode v) = some v := by
  interval_cases v <;> decide

theorem decodeMap_padChar : decodeMap padChar = none := by decide

theorem byte_of_val (a : Byte) (n : Nat) (h : n % 256 = a.val) : byte n = a := by
  apply Fin.ext; simpa [byte] using h

theorem decodeQuanta_EncodeToString : ∀ x : GoString, decodeQuanta (EncodeToString x) [] = some x
  | [] => by simp [EncodeToString, decodeQuanta]
  | [a] => by
    have h0 : a.val * 65536 / 262144 % 64 < 64 := Nat.mod_lt _ (by decide)
    have h1 : a.val * 65536 / 4096 % 64 < 64 := Nat.mod_lt _ (by decide)
    have hp : isNewline padChar = false := by decide
    have hs : skipNewlines [padChar] = [padChar] := by decide
    simp only [EncodeToString, decodeQuanta, decodeMap_encode _ h0, decodeMap_encode _ h1,
      decodeMap_padChar, List.nil_append, List.singleton_append, hp, hs]
    simp only [Bool.false_eq_true, if_false, ne_eq, not_true_eq_false, skipNewlines, and_self,
      if_true, Option.some.injEq, List.cons.injEq, and_true]
    apply byte_of_val
    have := a.isLt
    omega
  | [a, b] => by
    have h0 : (a.val * 65536 + b.val * 256) / 262144 % 64 < 64 := Nat.mod_lt _ (by decide)
    have h1 : (a.val * 65536 + b.val * 256) / 4096 % 64 < 64 := Nat.mod_lt _ (by decide)
    have h2 : (a.val * 65536 + b.val * 256) / 64 % 64 < 64 := Nat.mod_lt _ (by decide)
    have hp : isNewline padChar = false := by decide
    simp only [EncodeToString, decodeQuanta, decodeMap_encode _ h0, decodeMap_encode _ h1,
      decodeMap_encode _ h2, decodeMap_padChar, List.nil_append, List.singleton_append,
      List.cons_append, hp]
    simp only [Bool.false_eq_true, if_false, ne_eq, not_true_eq_false, skipNewlines,
      if_true, Option.some.injEq, List.cons.injEq, and_true]
    have := a.isLt
    have := b.isLt
    exact ⟨byte_of_val _ _ (by omega), byte_of_val _ _ (by omega)⟩
  | a :: b :: c :: rest => by
    have h0 : (a.val * 65536 + b.val * 256 + c.val) / 262144 % 64 < 64 := Nat.mod_lt _ (by decide)
    have h1 : (a.val * 65536 + b.val * 256 + c.val) / 4096 % 64 < 64 := Nat.mod_lt _ (by decide)
    have h2 : (a.val * 65536 + b.val * 256 + c.val) / 64 % 64 < 64 := Nat.mod_lt _ (by decide)
    have h3 : (a.val * 65536 + b.val * 256 + c.val) % 64 < 64 := Nat.mod_lt _ (by decide)
    simp only [EncodeToString, decodeQuanta, decodeMap_encode _ h0, decodeMap_encode _ h1,
      decodeMap_encode _ h2, decodeMap_encode _ h3, List.nil_append, List.singleton_append,
      List.cons_append, decodeQuanta_EncodeToString rest, Option.map_some']
    have := a.isLt
    have := b.isLt
    have := c.isLt
    simp only [Option.some.injEq, List.cons.injEq, and_true]
    exact ⟨byte_of_val _ _ (by omega), byte_of_val _ _ (by omega), byte_of_val _ _ (by omega)⟩

theorem DecodeString_EncodeToString (x : GoString) : DecodeString (EncodeToString x) = .ok x := by
  simp [DecodeString, decodeQuanta_EncodeToString]

end base64

/-! ## The middleware -/

theorem Header.Get_Set_self (h : Header) (k v : GoString) : (h.Set k v).Get k = v := by
  simp [Header.Set, Header.Get]

theorem find?_filter_of_imp {α : Type} (p q : α → Bool) (l : List α)
    (h : ∀ x, p x = true → q x = true) : (l.filter q).find? p = l.find? p := by
  induction l with
  | nil => rfl
  | cons a l ih =>
    by_cases hq : q a = true
    · rw [List.filter_cons_of_pos hq, List.find?_cons, List.find?_cons, ih]
    · have hp : p a = false := by
        cases hpa : p a with
        | false => rfl
        | true => exact absurd (h a hpa) hq
      rw [List.filter_cons_of_neg hq, List.find?_cons, hp, ih]

theorem Header.Get_Set_ne (h : Header) (k k' v : GoString) (hne : k ≠ k') :
    (h.Set k v).Get k' = h.Get k' := by
  have h1 : ((k, v) :: h.filter (fun kv => kv.1 ≠ k)).find? (fun kv => kv.1 = k')
      = h.find? (fun kv => kv.1 = k') := by
    rw [List.find?_cons]
    have : decide ((k, v).1 = k') = false := by simpa using hne
    rw [this]
    apply find?_filter_of_imp
    intro x hx
    have hx' : x.1 = k' := by simpa using hx
    simpa [hx'] using fun e : k' = k => hne e.symm
  simp only [Header.Set, Header.Get, h1]

theorem str_space : str " " = [32] := by decide

theorem str_colon : str ":" = [58] := by decide

theorem str_admin_colon : str "admin:" = str "admin" ++ [58] := by decide

theorem colon_not_mem_admin : (58 : Byte) ∉ str "admin" := by decide

/-- The challenge header is among the headers sent with an error answer. -/
theorem challenge_sent (w : ResponseWriter) (code : Nat) (hw : w.wroteHeader = none) :
    (http.Error (w.setHeader (str "WWW-Authenticate") (str "Basic realm=\"Restricted\""))
        (http.StatusText code) code).sent.Get (str "WWW-Authenticate")
      = str "Basic realm=\"Restricted\"" := by
  have hw' : (w.setHeader (str "WWW-Authenticate")
      (str "Basic realm=\"Restricted\"")).wroteHeader = none := hw
  rw [ResponseWriter.sent, http.Error_wroteHeader _ _ _ hw']
  simp only [ResponseWriter.setHeader]
  rw [Header.Get_Set_ne _ _ _ _ (by decide), Header.Get_Set_ne _ _ _ _ (by decide),
    Header.Get_Set_self]

/-- The middleware hands the request over when the header is a scheme word, a
space and the encoding of `admin:` followed by the password. -/
theorem basicAuth_pass (password scheme cred : GoString) (next : Handler σ) (r : Request)
    (c : Ctx σ) (hs : (32 : Byte) ∉ scheme)
    (hauth : r.Header.Get (str "Authorization") = scheme ++ str " " ++ cred)
    (hdec : base64.DecodeString cred = .ok (str "admin:" ++ password)) :
    basicAuth password next r c
      = next r { c with
          w := c.w.setHeader (str "WWW-Authenticate") (str "Basic realm=\"Restricted\""),
          served := c.served + 1 } := by
  have h1 : SplitN (r.Header.Get (str "Authorization")) (str " ") 2 = [scheme, cred] := by
    rw [hauth, str_space]
    simpa using SplitN_two_of_append scheme cred 32 hs
  have h2 : SplitN (str "admin:" ++ password) (str ":") 2 = [str "admin", password] := by
    rw [str_admin_colon, str_colon]
    simpa using SplitN_two_of_append (str "admin") password 58 colon_not_mem_admin
  simp [basicAuth, h1, hdec, h2]

/-- Whenever the middleware does not answer 401 itself, the header is a scheme
word, a space and a text that decodes to `admin:` followed by the password. -/
theorem basicAuth_reject (password : GoString) (next : Handler σ) (r : Request) (c : Ctx σ)
    (hv : ¬ ∃ scheme cred, r.Header.Get (str "Authorization") = scheme ++ str " " ++ cred ∧
      (32 : Byte) ∉ scheme ∧ base64.DecodeString cred = .ok (str "admin:" ++ password)) :
    (basicAuth password next r c).w
        = http.Error (c.w.setHeader (str "WWW-Authenticate") (str "Basic realm=\"Restricted\""))
            (http.StatusText 401) 401 ∧
      (basicAuth password next r c).served = c.served ∧
      (basicAuth password next r c).calls = c.calls ∧
      (basicAuth password next r c).db = c.db := by
  simp only [basicAuth]
  split
  · simp
  · rename_i hlen
    split
    · simp
    · rename_i b hb
      split
      · simp
      · rename_i hlen2
        split
        · simp
        · rename_i hcred
          exfalso
          apply hv
          rw [str_space] at hlen
          rw [str_colon] at hlen2 hcred
          obtain ⟨scheme, cred, hauth, hsp, hsplit⟩ := SplitN_two_length _ 32 (by simpa using hlen)
          obtain ⟨u, pw, hbb, _, hsplit2⟩ := SplitN_two_length _ 58 (by simpa using hlen2)
          rw [str_space, hsplit] at hb
          rw [hsplit2] at hcred
          simp only [List.getD_cons_zero, List.getD_cons_succ, ne_eq, not_or, not_not] at hcred hb
          refine ⟨scheme, cred, by rw [hauth, str_space]; simp, hsp, ?_⟩
          rw [hb, hbb, str_admin_colon, ← hcred.1, ← hcred.2]
          simp

/-- C1. The middleware calls the wrapped handler only for valid credentials: if
the `Authorization` header is a scheme word without a space, one space, and a
text that decodes (standard base64) to `admin:` followed by the configured
password, the request is handed to the wrapped handler; for every other request
(header missing, no second part, invalid base64, no `:` in the decoded text,
wrong user name or wrong password) the answer is 401, it carries the
`WWW-Authenticate` header, and the wrapped handler is not served. -/
theorem basicAuth_contract (password : GoString) (next : Handler σ) (r : Request) (c : Ctx σ)
    (hw : c.w.wroteHeader = none) :
    let out := basicAuth password next r c
    let valid := ∃ scheme cred, r.Header.Get (str "Authorization") = scheme ++ str " " ++ cred ∧
      (32 : Byte) ∉ scheme ∧ base64.DecodeString cred = .ok (str "admin:" ++ password)
    (valid → out = next r { c with
        w := c.w.setHeader (str "WWW-Authenticate") (str "Basic realm=\"Restricted\""),
        served := c.served + 1 }) ∧
    (¬ valid → out.w.status = 401 ∧
      out.w.sent.Get (str "WWW-Authenticate") = str "Basic realm=\"Restricted\"" ∧
      out.served = c.served ∧ out.calls = c.calls) := by
  intro out valid
  refine ⟨?_, ?_⟩
  · rintro ⟨scheme, cred, hauth, hs, hdec⟩
    exact basicAuth_pass password scheme cred next r c hs hauth hdec
  · intro hv
    obtain ⟨h1, h2, h3, _⟩ := basicAuth_reject password next r c hv
    refine ⟨?_, ?_, h2, h3⟩
    · simp only [out]; rw [h1]; exact http.Error_status _ _ _ hw
    · simp only [out]; rw [h1]; exact challenge_sent c.w 401 hw

/-- C10. The middleware accepts correct credentials whatever the scheme word is:
for every password (a `:` in it included) and every scheme word without a space
(the empty word included), a request whose `Authorization` header is the scheme
word, one space and the standard base64 encoding of `admin:` followed by the
password is handed to the wrapped handler, the middleware having written no
status. -/
theorem basicAuth_any_scheme (password scheme : GoString) (next : Handler σ) (r : Request)
    (c : Ctx σ) (hs : (32 : Byte) ∉ scheme)
    (hauth : r.Header.Get (str "Authorization")
      = scheme ++ str " " ++ base64.EncodeToString (str "admin:" ++ password)) :
    basicAuth password next r c
      = next r { c with
          w := c.w.setHeader (str "WWW-Authenticate") (str "Basic realm=\"Restricted\""),
          served := c.served + 1 } ∧
    (c.w.setHeader (str "WWW-Authenticate") (str "Basic realm=\"Restricted\"")).wroteHeader
      = c.w.wroteHeader :=
  ⟨basicAuth_pass password scheme _ next r c hs hauth (base64.DecodeString_EncodeToString _), rfl⟩

/-! ## The handlers -/

/-- C5. `rootIndexHandler` (GET /) dispatches on the form values `q` and `p`: a
non-empty `q` shorter than 3 is answered 422 without a store call, whatever `p`
is; for `q` of length at least 3 the listed data is `find(q)`, whatever `p` is;
for empty `q` and `p` exactly `"1"` it is `getPaused()`; otherwise no data query
is made and the listed data is the nil map.  In every case not answered 422
`keyCount` is called, and when it succeeds (and the index template parses and
executes without error) the page is rendered from that data and that count with
status 200. -/
theorem rootIndexHandler_dispatch (env : Env) (db : DB σ) (r : Request) (c : Ctx σ)
    (hw : c.w.wroteHeader = none) :
    let q := r.FormValue (str "q")
    let p := r.FormValue (str "p")
    let out := rootIndexHandler env db r c
    let rendered : RecordMap → σ → Prop := fun data s =>
      (db.keyCount s).1.2 = none → ∀ tmpl, env.indexTmpl = .ok tmpl →
        (tmpl.Execute [(str "data", .records data), (str "total_count", .int (db.keyCount s).1.1),
          (str "q", .text q), (str "p", .text p)]).2 = none →
        out.w.status = 200 ∧
        out.w = (tmpl.Execute [(str "data", .records data),
          (str "total_count", .int (db.keyCount s).1.1), (str "q", .text q),
          (str "p", .text p)]).1.foldl ResponseWriter.Write c.w
    (q ≠ [] → q.length < 3 → out.w.status = 422 ∧ out.calls = c.calls) ∧
    (3 ≤ q.length →
      out.calls = c.calls ++ [⟨.find q, none⟩, ⟨.keyCount, (db.keyCount (db.find q c.db).2).1.2⟩] ∧
      rendered (db.find q c.db).1 (db.find q c.db).2) ∧
    (q = [] → p = str "1" →
      out.calls = c.calls ++ [⟨.getPaused, none⟩, ⟨.keyCount, (db.keyCount (db.getPaused c.db).2).1.2⟩] ∧
      rendered (db.getPaused c.db).1 (db.getPaused c.db).2) ∧
    (q = [] → p ≠ str "1" →
      out.calls = c.calls ++ [⟨.keyCount, (db.keyCount c.db).1.2⟩] ∧
      rendered none c.db) ∧
    (¬ (q ≠ [] ∧ q.length < 3) → out.w.status ≠ 422 ∧ ∃ e, ⟨.keyCount, e⟩ ∈ out.calls) := by
  intro q p out rendered
  refine ⟨?_, ?_, ?_, ?_, ?_⟩
  · intro h1 h2
    have h3 : ¬ (r.FormValue (str "q")).length ≥ 3 := by simp only [q] at h2; omega
    simp only [q] at h1
    simp [out, rootIndexHandler, h1, h3, http.Error_status _ _ _ hw]
  · intro h1
    have h0 : r.FormValue (str "q") ≠ [] := by
      intro h; simp [q, h] at h1
    have h3 : (r.FormValue (str "q")).length ≥ 3 := h1
    have ho : out = rootIndexHandler.page env db q p (db.find q c.db).1 (c.find db q).2 := by
      simp [out, rootIndexHandler, h0, h3, Ctx.find, q, p]
    refine ⟨?_, ?_⟩
    · rw [ho, indexPage_calls]; simp [Ctx.find]
    · intro hk tmpl ht hx
      rw [ho]
      exact indexPage_rendered env db q p _ (c.find db q).2 hw hk tmpl ht hx
  · intro h1 h2
    have ho : out = rootIndexHandler.page env db q p (db.getPaused c.db).1 (c.getPaused db).2 := by
      simp only [q] at h1; simp only [p] at h2
      simp [out, rootIndexHandler, h1, h2, Ctx.getPaused, q, p]
    refine ⟨?_, ?_⟩
    · rw [ho, indexPage_calls]; simp [Ctx.getPaused]
    · intro hk tmpl ht hx
      rw [ho]
      exact indexPage_rendered env db q p _ (c.getPaused db).2 hw hk tmpl ht hx
  · intro h1 h2
    have ho : out = rootIndexHandler.page env db q p none c := by
      simp only [q] at h1; simp only [p] at h2
      simp [out, rootIndexHandler, h1, h2, q, p]
    refine ⟨?_, ?_⟩
    · rw [ho, indexPage_calls]
    · intro hk tmpl ht hx
      rw [ho]
      exact indexPage_rendered env db q p _ c hw hk tmpl ht hx
  · intro h
    have : ∃ data c1, c1.w.wroteHeader = none ∧ out = rootIndexHandler.page env db q p data c1 := by
      by_cases h0 : r.FormValue (str "q") = []
      · by_cases h2 : r.FormValue (str "p") = str "1"
        · exact ⟨(db.getPaused c.db).1, (c.getPaused db).2, hw, by
            simp [out, rootIndexHandler, h0, h2, Ctx.getPaused, q, p]⟩
        · exact ⟨none, c, hw, by simp [out, rootIndexHandler, h0, h2, q, p]⟩
      · have h3 : (r.FormValue (str "q")).length ≥ 3 := by
          simp only [q] at h; by_contra h4; exact h ⟨h0, by omega⟩
        exact ⟨(db.find q c.db).1, (c.find db q).2, hw, by
          simp [out, rootIndexHandler, h0, h3, Ctx.find, q, p]⟩
    obtain ⟨data, c1, hw1, ho⟩ := this
    rw [ho]
    refine ⟨?_, ?_⟩
    · rcases indexPage_status env db q p data c1 hw1 with h | h <;> rw [h] <;> decide
    · exact ⟨(db.keyCount c1.db).1.2, by rw [indexPage_calls]; simp⟩

/-- C6. `apiIndexHandler` (GET /api/) dispatches on `q` and `p`: for `q` of length
at least 3 it answers 200 with the JSON of `find(q)` (whatever `p` is);
otherwise, for `p` exactly `"1"`, 200 with the JSON of `getPaused()`; otherwise
422.  The answer is 422 exactly when `len(q) < 3` and `p` is not `"1"`. -/
theorem apiIndexHandler_dispatch (env : Env) (db : DB σ) (r : Request) (c : Ctx σ)
    (hw : c.w.wroteHeader = none) :
    let q := r.FormValue (str "q")
    let p := r.FormValue (str "p")
    let out := apiIndexHandler env db r c
    (3 ≤ q.length →
      out.w.status = 200 ∧
      out.w.body = c.w.body ++ env.marshal [(str "data", .records (db.find q c.db).1)] ∧
      out.calls = c.calls ++ [⟨.find q, none⟩]) ∧
    (q.length < 3 → p = str "1" →
      out.w.status = 200 ∧
      out.w.body = c.w.body ++ env.marshal [(str "data", .records (db.getPaused c.db).1)] ∧
      out.calls = c.calls ++ [⟨.getPaused, none⟩]) ∧
    (q.length < 3 → p ≠ str "1" → out.w.status = 422 ∧ out.calls = c.calls) ∧
    (out.w.status = 422 ↔ q.length < 3 ∧ p ≠ str "1") := by
  intro q p out
  have a : 3 ≤ q.length →
      out.w.status = 200 ∧
      out.w.body = c.w.body ++ env.marshal [(str "data", .records (db.find q c.db).1)] ∧
      out.calls = c.calls ++ [⟨.find q, none⟩] := by
    intro h1
    have h3 : (r.FormValue (str "q")).length ≥ 3 := h1
    have := render.JSON_fresh env c.w [(str "data", .records (db.find q c.db).1)] hw
    simp [out, apiIndexHandler, h3, Ctx.find, q, this]
  have b : q.length < 3 → p = str "1" →
      out.w.status = 200 ∧
      out.w.body = c.w.body ++ env.marshal [(str "data", .records (db.getPaused c.db).1)] ∧
      out.calls = c.calls ++ [⟨.getPaused, none⟩] := by
    intro h1 h2
    have h3 : ¬ (r.FormValue (str "q")).length ≥ 3 := by simp only [q] at h1; omega
    simp only [p] at h2
    have := render.JSON_fresh env c.w [(str "data", .records (db.getPaused c.db).1)] hw
    simp [out, apiIndexHandler, h3, h2, Ctx.getPaused, this]
  have d : q.length < 3 → p ≠ str "1" → out.w.status = 422 ∧ out.calls = c.calls := by
    intro h1 h2
    have h3 : ¬ (r.FormValue (str "q")).length ≥ 3 := by simp only [q] at h1; omega
    simp only [p] at h2
    simp [out, apiIndexHandler, h3, h2, http.Error_status _ _ _ hw]
  refine ⟨a, b, d, ?_⟩
  constructor
  · intro h
    by_cases h1 : 3 ≤ q.length
    · rw [(a h1).1] at h; exact absurd h (by decide)
    · by_cases h2 : p = str "1"
      · rw [(b (by omega) h2).1] at h; exact absurd h (by decide)
      · exact ⟨by omega, h2⟩
  · rintro ⟨h1, h2⟩
    exact (d h1 h2).1

/-! ## `http.Redirect`: targets that it leaves as they are -/

/-- C7. `apiPutHandler` (PUT /api/:key), for a key of length at least 4: if the
body decodes to a record, `put` is called exactly once with the key and that
record, the store is left as that call leaves it and, when `put` succeeds,
the answer is 200 with the JSON of `{key: record}`; if the decoder reports
`io.EOF` (empty body) the same holds with the default record (`Paused` false,
empty data); if decoding fails in any other way the answer is 400 and `put` is
not called. -/
theorem apiPutHandler_stores_and_echoes (env : Env) (db : DB σ) (r : Request) (c : Ctx σ)
    (hw : c.w.wroteHeader = none) (hkey : 4 ≤ (URLParam r (str "key")).length) :
    let key := URLParam r (str "key")
    let out := apiPutHandler env db r c
    let stored : Record → Prop := fun record =>
      out.calls = c.calls ++ [⟨.put key (some record), (db.put key (some record) c.db).1⟩] ∧
      out.db = (db.put key (some record) c.db).2 ∧
      ((db.put key (some record) c.db).1 = none →
        out.w.status = 200 ∧
        out.w.body = c.w.body ++ env.marshal [(str "data", .keyed key (some record))])
    (∀ record, env.decodeRecord r.Body = .ok record → stored record) ∧
    (env.decodeRecord r.Body = .error .EOF → stored ⟨false, []⟩) ∧
    (∀ e, env.decodeRecord r.Body = .error e → e ≠ .EOF →
      out.w.status = 400 ∧ out.calls = c.calls) := by
  intro key out stored
  have hk : ¬ (URLParam r (str "key")).length < 4 := by omega
  refine ⟨?_, ?_, ?_⟩
  · intro record hd
    refine ⟨?_, ?_, ?_⟩
    · simp only [out, apiPutHandler, hk, if_false, render.Bind, hd, Ctx.put]
      simp only [ne_eq, not_true_eq_false, false_and, if_false]
      split <;> simp [key]
    · simp only [out, apiPutHandler, hk, if_false, render.Bind, hd, Ctx.put]
      simp only [ne_eq, not_true_eq_false, false_and, if_false]
      split <;> simp [key]
    · intro hp
      have := render.JSON_fresh env c.w [(str "data", .keyed key (some record))] hw
      simp only [key] at hp
      simp only [out, apiPutHandler, hk, if_false, render.Bind, hd, Ctx.put]
      simp [hp, this]
  · intro hd
    refine ⟨?_, ?_, ?_⟩
    · simp only [out, apiPutHandler, hk, if_false, render.Bind, hd, Ctx.put]
      simp only [ne_eq, not_true_eq_false, and_false, if_false]
      split <;> simp [key, Record.zero]
    · simp only [out, apiPutHandler, hk, if_false, render.Bind, hd, Ctx.put]
      simp only [ne_eq, not_true_eq_false, and_false, if_false]
      split <;> simp [key, Record.zero]
    · intro hp
      have := render.JSON_fresh env c.w [(str "data", .keyed key (some ⟨false, []⟩))] hw
      simp only [key] at hp
      simp only [out, apiPutHandler, hk, if_false, render.Bind, hd, Ctx.put]
      simp [hp, this, Record.zero]
  · intro e hd hne
    simp [out, apiPutHandler, hk, render.Bind, hd, hne, http.Error_status _ _ _ hw]

/-- C3. A validation failure never reaches the store: if `rootIndexHandler`,
`rootCreateHandler`, `apiIndexHandler` or `apiPutHandler` answers 422 or 400, it
has made no store call while handling the request (the trace of store calls and
the state of the store are as they were). -/
theorem validation_failure_makes_no_store_call (env : Env) (db : DB σ) (r : Request)
    (c : Ctx σ) (hw : c.w.wroteHeader = none) :
    ∀ out ∈ [rootIndexHandler env db r c, rootCreateHandler env db r c, apiIndexHandler env db r c,
        apiPutHandler env db r c],
      out.w.status = 422 ∨ out.w.status = 400 → out.calls = c.calls ∧ out.db = c.db := by
  intro out hout hs
  simp only [List.mem_cons, List.mem_singleton, List.not_mem_nil, or_false] at hout
  rcases hout with rfl | rfl | rfl | rfl
  · by_cases h : r.FormValue (str "q") ≠ [] ∧ (r.FormValue (str "q")).length < 3
    · exact (rootIndexHandler_short env db r c hw h.1 h.2).2
    · obtain ⟨data, c1, hw1, ho, _⟩ := rootIndexHandler_page env db r c h
      rw [ho] at hs
      have hw1' : c1.w.wroteHeader = none := by rw [hw1]; exact hw
      rcases indexPage_status env db _ _ data c1 hw1' with h1 | h1 <;>
        rw [h1] at hs <;> omega
  · by_cases h : (r.FormValue (str "key")).length < 4
    · exact (rootCreateHandler_short env db r c hw h).2
    · obtain ⟨record, err, _, h1, h2⟩ := rootCreateHandler_long env db r c hw (by omega)
      cases he : err with
      | none => rw [h1 he] at hs; omega
      | some e => rw [h2 (by simp [he])] at hs; omega
  · by_cases h : 3 ≤ (r.FormValue (str "q")).length
    · rw [((apiIndexHandler_cases env db r c hw).1 h).1] at hs; omega
    · by_cases h2 : r.FormValue (str "p") = str "1"
      · rw [((apiIndexHandler_cases env db r c hw).2.1 (by omega) h2).1] at hs; omega
      · exact ((apiIndexHandler_cases env db r c hw).2.2 (by omega) h2).2
  · by_cases h : (URLParam r (str "key")).length < 4
    · exact (apiPutHandler_short env db r c hw h).2
    · rcases apiPutHandler_long env db r c hw (by omega) with h1 | ⟨record, err, _, h1, h2⟩
      · exact h1.2
      · cases he : err with
        | none => rw [h1 he] at hs; omega
        | some e => rw [h2 (by simp [he])] at hs; omega

/-- C4. Store outcomes and status codes: `rootReadHandler` and `apiReadHandler`
answer 404 exactly when `get` returns `errRecordNotFound`; and in each of the
seven handlers, whenever a store call returns an error other than that outcome
of `get`, the answer is 500. -/
theorem store_errors_map_to_status (env : Env) (db : DB σ) (r : Request) (c : Ctx σ)
    (hw : c.w.wroteHeader = none) (hc : c.calls = []) :
    ((rootReadHandler env db r c).w.status = 404 ↔
      (db.get (URLParam r (str "key")) c.db).1.2 = some .errRecordNotFound) ∧
    ((apiReadHandler env db r c).w.status = 404 ↔
      (db.get (URLParam r (str "key")) c.db).1.2 = some .errRecordNotFound) ∧
    ∀ out ∈ [rootIndexHandler env db r c, rootCreateHandler env db r c, rootReadHandler env db r c,
        apiIndexHandler env db r c, apiReadHandler env db r c, apiPutHandler env db r c,
        apiDeleteHandler db r c],
      ∀ ev ∈ out.calls, ∀ e, ev.err = some e →
        ¬ (∃ key, ev.call = .get key ∧ e = .errRecordNotFound) → out.w.status = 500 := by
  have hread := rootReadHandler_cases env db r c hw
  have hapi := apiReadHandler_cases env db r c hw
  simp only at hread hapi
  refine ⟨?_, ?_, ?_⟩
  · constructor
    · intro hs
      by_contra hne
      cases he : (db.get (URLParam r (str "key")) c.db).1.2 with
      | none =>
        rcases (hread.2.2 he).2.2 with h | h <;> rw [h] at hs <;> omega
      | some e =>
        rw [(hread.2.1 (by simp [he]) hne).1] at hs; omega
    · intro h; exact (hread.1 h).1
  · constructor
    · intro hs
      by_contra hne
      cases he : (db.get (URLParam r (str "key")) c.db).1.2 with
      | none => rw [hapi.2.2.2 he] at hs; omega
      | some e => rw [hapi.2.2.1 (by simp [he]) hne] at hs; omega
    · intro h; exact hapi.2.1 h
  · intro out hout ev hev e hee hnot
    simp only [List.mem_cons, List.mem_singleton, List.not_mem_nil, or_false] at hout
    rcases hout with rfl | rfl | rfl | rfl | rfl | rfl | rfl
    · by_cases h : r.FormValue (str "q") ≠ [] ∧ (r.FormValue (str "q")).length < 3
      · rw [(rootIndexHandler_short env db r c hw h.1 h.2).2.1, hc] at hev
        simp at hev
      · obtain ⟨data, c1, hw1, ho, hc1⟩ := rootIndexHandler_page env db r c h
        have hw1' : c1.w.wroteHeader = none := by rw [hw1]; exact hw
        rw [ho] at hev ⊢
        rw [indexPage_calls, hc1, hc] at hev
        have hk : (db.keyCount c1.db).1.2 = some e := by
          simp only [List.nil_append, List.mem_append, List.mem_singleton] at hev
          rcases hev with hev | hev
          · split at hev
            · simp only [List.mem_singleton] at hev; subst hev; simp at hee
            · split at hev
              · simp only [List.mem_singleton] at hev; subst hev; simp at hee
              · simp at hev
          · subst hev; exact hee
        exact indexPage_error env db _ _ data c1 hw1' e hk
    · by_cases h : (r.FormValue (str "key")).length < 4
      · rw [(rootCreateHandler_short env db r c hw h).2.1, hc] at hev
        simp at hev
      · obtain ⟨record, err, h0, _, h2⟩ := rootCreateHandler_long env db r c hw (by omega)
        rw [h0, hc] at hev
        simp only [List.nil_append, List.mem_singleton] at hev
        subst hev
        exact h2 (by simp only [] at hee; simp [hee])
    · cases he : (db.get (URLParam r (str "key")) c.db).1.2 with
      | none =>
        rw [(hread.2.2 he).1, hc] at hev
        simp only [List.nil_append, List.mem_cons, List.mem_singleton, List.not_mem_nil,
          or_false] at hev
        rcases hev with hev | hev
        · subst hev; simp at hee
        · subst hev
          exact (hread.2.2 he).2.1 (by simp only [] at hee; simp [hee])
      | some e1 =>
        by_cases hnf : (db.get (URLParam r (str "key")) c.db).1.2 = some .errRecordNotFound
        · rw [(hread.1 hnf).2, hc] at hev
          simp only [List.nil_append, List.mem_singleton] at hev
          subst hev
          simp only [] at hee
          exact absurd ⟨_, rfl, by rw [hnf] at hee; exact (Option.some.inj hee).symm⟩ hnot
        · exact (hread.2.1 (by simp [he]) hnf).1
    · by_cases h : 3 ≤ (r.FormValue (str "q")).length
      · rw [((apiIndexHandler_cases env db r c hw).1 h).2, hc] at hev
        simp only [List.nil_append, List.mem_singleton] at hev
        subst hev; simp at hee
      · by_cases h2 : r.FormValue (str "p") = str "1"
        · rw [((apiIndexHandler_cases env db r c hw).2.1 (by omega) h2).2, hc] at hev
          simp only [List.nil_append, List.mem_singleton] at hev
          subst hev; simp at hee
        · rw [((apiIndexHandler_cases env db r c hw).2.2 (by omega) h2).2.1, hc] at hev
          simp at hev
    · rw [hapi.1, hc] at hev
      simp only [List.nil_append, List.mem_singleton] at hev
      subst hev
      simp only [] at hee
      by_cases hnf : (db.get (URLParam r (str "key")) c.db).1.2 = some .errRecordNotFound
      · exact absurd ⟨_, rfl, by rw [hnf] at hee; exact (Option.some.inj hee).symm⟩ hnot
      · exact hapi.2.2.1 (by simp [hee]) hnf
    · by_cases h : (URLParam r (str "key")).length < 4
      · rw [(apiPutHandler_short env db r c hw h).2.1, hc] at hev
        simp at hev
      · rcases apiPutHandler_long env db r c hw (by omega) with h1 | ⟨record, err, h0, _, h2⟩
        · rw [h1.2.1, hc] at hev; simp at hev
        · rw [h0, hc] at hev
          simp only [List.nil_append, List.mem_singleton] at hev
          subst hev
          exact h2 (by simp only [] at hee; simp [hee])
    · have hd := apiDeleteHandler_cases db r c hw
      simp only at hd
      rw [hd.1, hc] at hev
      simp only [List.nil_append, List.mem_singleton] at hev
      subst hev
      exact hd.2.1 (by simp only [] at hee; simp [hee])

/-- C9, as amended.  A request that passes validation (is not answered 422 or 400)
makes one or two store calls: exactly one in `rootCreateHandler` (`put`),
`apiIndexHandler` (`find` or `getPaused`), `apiReadHandler` (`get`),
`apiPutHandler` (`put`) and `apiDeleteHandler` (`delete`); in
`rootIndexHandler` the call of `keyCount`, preceded by `find` when `q` has length
at least 3 and by `getPaused` when `q` is empty and `p` is `"1"`; in
`rootReadHandler` the call of `get`, followed by `keyCount` unless `get` returned
an error. -/
theorem store_calls_per_request (env : Env) (db : DB σ) (r : Request) (c : Ctx σ)
    (hw : c.w.wroteHeader = none) (hc : c.calls = []) :
    let q := r.FormValue (str "q")
    let p := r.FormValue (str "p")
    let key := URLParam r (str "key")
    ((rootCreateHandler env db r c).w.status ≠ 422 → (rootCreateHandler env db r c).calls.length = 1) ∧
    ((apiIndexHandler env db r c).w.status ≠ 422 → (apiIndexHandler env db r c).calls.length = 1) ∧
    (apiReadHandler env db r c).calls.length = 1 ∧
    ((apiPutHandler env db r c).w.status ≠ 422 → (apiPutHandler env db r c).w.status ≠ 400 →
      (apiPutHandler env db r c).calls.length = 1) ∧
    (apiDeleteHandler db r c).calls.length = 1 ∧
    ((rootIndexHandler env db r c).w.status ≠ 422 →
      (rootIndexHandler env db r c).calls.map (·.call) =
        if 3 ≤ q.length then [.find q, .keyCount]
        else if p = str "1" then [.getPaused, .keyCount] else [.keyCount]) ∧
    ((rootReadHandler env db r c).calls.map (·.call) =
        if (db.get key c.db).1.2 = none then [.get key, .keyCount] else [.get key]) := by
  intro q p key
  refine ⟨?_, ?_, ?_, ?_, ?_, ?_, ?_⟩
  · intro hs
    by_cases h : (r.FormValue (str "key")).length < 4
    · exact absurd (rootCreateHandler_short env db r c hw h).1 hs
    · obtain ⟨record, err, h0, _, _⟩ := rootCreateHandler_long env db r c hw (by omega)
      rw [h0, hc]; rfl
  · intro hs
    by_cases h : 3 ≤ (r.FormValue (str "q")).length
    · rw [((apiIndexHandler_cases env db r c hw).1 h).2, hc]; rfl
    · by_cases h2 : r.FormValue (str "p") = str "1"
      · rw [((apiIndexHandler_cases env db r c hw).2.1 (by omega) h2).2, hc]; rfl
      · exact absurd ((apiIndexHandler_cases env db r c hw).2.2 (by omega) h2).1 hs
  · rw [(apiReadHandler_cases env db r c hw).1, hc]; rfl
  · intro hs1 hs2
    by_cases h : (URLParam r (str "key")).length < 4
    · exact absurd (apiPutHandler_short env db r c hw h).1 hs1
    · rcases apiPutHandler_long env db r c hw (by omega) with h1 | ⟨record, err, h0, _, _⟩
      · exact absurd h1.1 hs2
      · rw [h0, hc]; rfl
  · rw [(apiDeleteHandler_cases db r c hw).1, hc]; rfl
  · intro hs
    by_cases h : r.FormValue (str "q") ≠ [] ∧ (r.FormValue (str "q")).length < 3
    · exact absurd (rootIndexHandler_short env db r c hw h.1 h.2).1 hs
    · obtain ⟨data, c1, _, ho, hc1⟩ := rootIndexHandler_page env db r c h
      rw [ho, indexPage_calls, hc1, hc]
      simp only [q, p]
      split
      · simp
      · split <;> simp
  · have hread := rootReadHandler_cases env db r c hw
    simp only at hread
    cases he : (db.get (URLParam r (str "key")) c.db).1.2 with
    | none =>
      rw [(hread.2.2 he).1, hc]; simp [key, he]
    | some e =>
      by_cases hnf : (db.get (URLParam r (str "key")) c.db).1.2 = some .errRecordNotFound
      · rw [(hread.1 hnf).2, hc]; simp [key, he]
      · rw [(hread.2.1 (by simp [he]) hnf).2, hc]; simp [key, he]

/-- C9, counterexample.  The request `GET /?q=abc` passes validation (it is
answered 200) and `rootIndexHandler` makes two store calls for it, `find` and
`keyCount`, not one. -/
theorem one_store_call_counterexample :
    (rootIndexHandler plainEnv memDB (formRequest [(str "q", str "abc")]) (Ctx.start [])).w.status
      = 200 ∧
    (rootIndexHandler plainEnv memDB (formRequest [(str "q", str "abc")]) (Ctx.start [])).calls
      = [⟨.find (str "abc"), none⟩, ⟨.keyCount, none⟩] ∧
    ¬ (rootIndexHandler plainEnv memDB (formRequest [(str "q", str "abc")])
        (Ctx.start [])).calls.length = 1 := by
  decide

/-- C2, as amended.  The adapter enforces the minimum key length of 4 bytes (Go's
`len`) at the boundary: `rootCreateHandler` and `apiPutHandler` answer 422 and do
not call `put` when the key has fewer than 4 bytes, so every key that any
handler passes to `put` has at least 4 bytes. -/
theorem key_length_enforced (env : Env) (db : DB σ) (r : Request) (c : Ctx σ)
    (hw : c.w.wroteHeader = none) (hc : c.calls = []) :
    ((r.FormValue (str "key")).length < 4 →
      (rootCreateHandler env db r c).w.status = 422 ∧ (rootCreateHandler env db r c).calls = []) ∧
    ((URLParam r (str "key")).length < 4 →
      (apiPutHandler env db r c).w.status = 422 ∧ (apiPutHandler env db r c).calls = []) ∧
    ∀ out ∈ [rootIndexHandler env db r c, rootCreateHandler env db r c, rootReadHandler env db r c,
        apiIndexHandler env db r c, apiReadHandler env db r c, apiPutHandler env db r c,
        apiDeleteHandler db r c],
      ∀ key record e, (⟨.put key record, e⟩ : StoreEvent) ∈ out.calls → 4 ≤ key.length := by
  refine ⟨?_, ?_, ?_⟩
  · intro h
    have := rootCreateHandler_short env db r c hw h
    exact ⟨this.1, by rw [this.2.1, hc]⟩
  · intro h
    have := apiPutHandler_short env db r c hw h
    exact ⟨this.1, by rw [this.2.1, hc]⟩
  · intro out hout key record e hev
    simp only [List.mem_cons, List.mem_singleton, List.not_mem_nil, or_false] at hout
    rcases hout with rfl | rfl | rfl | rfl | rfl | rfl | rfl
    · by_cases h : r.FormValue (str "q") ≠ [] ∧ (r.FormValue (str "q")).length < 3
      · rw [(rootIndexHandler_short env db r c hw h.1 h.2).2.1, hc] at hev
        simp at hev
      · obtain ⟨data, c1, _, ho, hc1⟩ := rootIndexHandler_page env db r c h
        rw [ho, indexPage_calls, hc1, hc] at hev
        simp only [List.nil_append, List.mem_append, List.mem_singleton] at hev
        rcases hev with hev | hev
        · split at hev
          · simp at hev
          · split at hev <;> simp at hev
        · simp at hev
    · by_cases h : (r.FormValue (str "key")).length < 4
      · rw [(rootCreateHandler_short env db r c hw h).2.1, hc] at hev
        simp at hev
      · obtain ⟨record, err, h0, _, _⟩ := rootCreateHandler_long env db r c hw (by omega)
        rw [h0, hc] at hev
        simp only [List.nil_append, List.mem_singleton, StoreEvent.mk.injEq,
          StoreCall.put.injEq] at hev
        rw [hev.1.1]; omega
    · have hread := rootReadHandler_cases env db r c hw
      simp only at hread
      cases he : (db.get (URLParam r (str "key")) c.db).1.2 with
      | none => rw [(hread.2.2 he).1, hc] at hev; simp at hev
      | some e1 =>
        by_cases hnf : (db.get (URLParam r (str "key")) c.db).1.2 = some .errRecordNotFound
        · rw [(hread.1 hnf).2, hc] at hev; simp at hev
        · rw [(hread.2.1 (by simp [he]) hnf).2, hc] at hev; simp at hev
    · by_cases h : 3 ≤ (r.FormValue (str "q")).length
      · rw [((apiIndexHandler_cases env db r c hw).1 h).2, hc] at hev; simp at hev
      · by_cases h2 : r.FormValue (str "p") = str "1"
        · rw [((apiIndexHandler_cases env db r c hw).2.1 (by omega) h2).2, hc] at hev
          simp at hev
        · rw [((apiIndexHandler_cases env db r c hw).2.2 (by omega) h2).2.1, hc] at hev
          simp at hev
    · rw [(apiReadHandler_cases env db r c hw).1, hc] at hev; simp at hev
    · by_cases h : (URLParam r (str "key")).length < 4
      · rw [(apiPutHandler_short env db r c hw h).2.1, hc] at hev
        simp at hev
      · rcases apiPutHandler_long env db r c hw (by omega) with h1 | ⟨record, err, h0, _, _⟩
        · rw [h1.2.1, hc] at hev; simp at hev
        · rw [h0, hc] at hev
          simp only [List.nil_append, List.mem_singleton, StoreEvent.mk.injEq,
            StoreCall.put.injEq] at hev
          rw [hev.1.1]; omega
    · rw [(apiDeleteHandler_cases db r c hw).1, hc] at hev; simp at hev

/-- C2, counterexample.  The key `éé` has two characters, fewer than 4, but four
bytes: `rootCreateHandler` does not answer 422 and passes it to `put`. -/
theorem key_characters_counterexample :
    charCount (str "éé") = 2 ∧ (str "éé").length = 4 ∧
    (rootCreateHandler plainEnv memDB (formRequest [(str "key", str "éé")]) (Ctx.start [])).w.status
      = 302 ∧
    (rootCreateHandler plainEnv memDB (formRequest [(str "key", str "éé")]) (Ctx.start [])).calls
      = [⟨.put (str "éé") none, none⟩] := by
  decide

/-! ## The theorems at concrete requests -/

/-- C1 at two requests: `Basic` credentials for the password `secret` are handed
to the wrapped handler; a request without the header is answered 401. -/
theorem basicAuth_contract_witness :
    (Ctx.start ()).w.wroteHeader = none ∧
    basicAuth (str "secret") noContentHandler (authRequest (str "Basic YWRtaW46c2VjcmV0"))
        (Ctx.start ())
      = noContentHandler (authRequest (str "Basic YWRtaW46c2VjcmV0"))
          { Ctx.start () with
            w := (Ctx.start ()).w.setHeader (str "WWW-Authenticate")
              (str "Basic realm=\"Restricted\""),
            served := (Ctx.start ()).served + 1 } ∧
    (basicAuth (str "secret") noContentHandler (formRequest []) (Ctx.start ())).w.status = 401 ∧
    (basicAuth (str "secret") noContentHandler (formRequest []) (Ctx.start ())).served = 0 :=
  ⟨rfl, (basicAuth_contract (str "secret") noContentHandler
    (authRequest (str "Basic YWRtaW46c2VjcmV0")) (Ctx.start ()) rfl).1
    ⟨str "Basic", str "YWRtaW46c2VjcmV0", by decide, by decide, by rfl⟩,
    ((basicAuth_contract (str "secret") noContentHandler (formRequest []) (Ctx.start ()) rfl).2
      (by
        rintro ⟨scheme, cred, h, _⟩
        have h2 := congrArg List.length h
        simp [formRequest, Header.Get, str_space] at h2
        omega)).1,
    ((basicAuth_contract (str "secret") noContentHandler (formRequest []) (Ctx.start ()) rfl).2
      (by
        rintro ⟨scheme, cred, h, _⟩
        have h2 := congrArg List.length h
        simp [formRequest, Header.Get, str_space] at h2
        omega)).2.2.1⟩

/-- C10 at the scheme word `Bearer` and the password `a:b`. -/
theorem basicAuth_any_scheme_witness :
    (32 : Byte) ∉ str "Bearer" ∧
    (authRequest (str "Bearer YWRtaW46YTpi")).Header.Get (str "Authorization")
      = str "Bearer" ++ str " " ++ base64.EncodeToString (str "admin:" ++ str "a:b") ∧
    (basicAuth (str "a:b") noContentHandler (authRequest (str "Bearer YWRtaW46YTpi"))
        (Ctx.start ())).served = 1 ∧
    (basicAuth (str "a:b") noContentHandler (authRequest (str "Bearer YWRtaW46YTpi"))
        (Ctx.start ())).w.status = 204 :=
  ⟨by decide, by decide, by
    rw [(basicAuth_any_scheme (str "a:b") (str "Bearer") noContentHandler
      (authRequest (str "Bearer YWRtaW46YTpi")) (Ctx.start ()) (by decide) (by decide)).1]
    decide, by
    rw [(basicAuth_any_scheme (str "a:b") (str "Bearer") noContentHandler
      (authRequest (str "Bearer YWRtaW46YTpi")) (Ctx.start ()) (by decide) (by decide)).1]
    decide⟩

/-- C2 (amended) at the key `abc`. -/
theorem key_length_enforced_witness :
    (Ctx.start ([] : List (GoString × Record))).w.wroteHeader = none ∧
    (Ctx.start ([] : List (GoString × Record))).calls = [] ∧
    ((formRequest [(str "key", str "abc")]).FormValue (str "key")).length < 4 ∧
    (rootCreateHandler plainEnv memDB (formRequest [(str "key", str "abc")]) (Ctx.start [])).w.status
      = 422 ∧
    (rootCreateHandler plainEnv memDB (formRequest [(str "key", str "abc")]) (Ctx.start [])).calls = [] :=
  ⟨rfl, rfl, by decide,
    (key_length_enforced plainEnv memDB (formRequest [(str "key", str "abc")]) (Ctx.start [])
      rfl rfl).1 (by decide)⟩

/-- C3 at a `PUT /api/abcd` whose body does not decode. -/
theorem validation_failure_makes_no_store_call_witness :
    (Ctx.start ([] : List (GoString × Record))).w.wroteHeader = none ∧
    ((apiPutHandler plainEnv memDB (keyRequest (str "abcd") (str "junk")) (Ctx.start [])).w.status
        = 422 ∨
      (apiPutHandler plainEnv memDB (keyRequest (str "abcd") (str "junk")) (Ctx.start [])).w.status
        = 400) ∧
    (apiPutHandler plainEnv memDB (keyRequest (str "abcd") (str "junk")) (Ctx.start [])).calls
      = (Ctx.start ([] : List (GoString × Record))).calls ∧
    (apiPutHandler plainEnv memDB (keyRequest (str "abcd") (str "junk")) (Ctx.start [])).db
      = (Ctx.start ([] : List (GoString × Record))).db :=
  ⟨rfl, by decide,
    validation_failure_makes_no_store_call plainEnv memDB (keyRequest (str "abcd") (str "junk"))
      (Ctx.start []) rfl _ (by simp) (by decide)⟩

/-- C4 at a `DELETE /api/abcd` on a store that fails. -/
theorem store_errors_map_to_status_witness :
    (Ctx.start ()).w.wroteHeader = none ∧ (Ctx.start ()).calls = [] ∧
    (⟨.delete (str "abcd"), some (.other "i/o")⟩ : StoreEvent)
      ∈ (apiDeleteHandler brokenDB (keyRequest (str "abcd") []) (Ctx.start ())).calls ∧
    (apiDeleteHandler brokenDB (keyRequest (str "abcd") []) (Ctx.start ())).w.status = 500 :=
  ⟨rfl, rfl, by decide,
    (store_errors_map_to_status plainEnv brokenDB (keyRequest (str "abcd") []) (Ctx.start ())
      rfl rfl).2.2 _ (by simp) ⟨.delete (str "abcd"), some (.other "i/o")⟩ (by decide)
      (.other "i/o") rfl (by simp)⟩

/-- C5 at `GET /?q=abc&p=1` on a store holding the key `xabcx`: the page lists
`find("abc")` and the count 1, with status 200. -/
theorem rootIndexHandler_dispatch_witness :
    (Ctx.start [(str "xabcx", Record.zero)]).w.wroteHeader = none ∧
    3 ≤ ((formRequest [(str "q", str "abc"), (str "p", str "1")]).FormValue (str "q")).length ∧
    (rootIndexHandler plainEnv memDB (formRequest [(str "q", str "abc"), (str "p", str "1")])
        (Ctx.start [(str "xabcx", Record.zero)])).calls
      = [⟨.find (str "abc"), none⟩, ⟨.keyCount, none⟩] ∧
    (rootIndexHandler plainEnv memDB (formRequest [(str "q", str "abc"), (str "p", str "1")])
        (Ctx.start [(str "xabcx", Record.zero)])).w.status = 200 :=
  ⟨rfl, by decide,
    ((rootIndexHandler_dispatch plainEnv memDB
      (formRequest [(str "q", str "abc"), (str "p", str "1")])
      (Ctx.start [(str "xabcx", Record.zero)]) rfl).2.1 (by decide)).1,
    (((rootIndexHandler_dispatch plainEnv memDB
      (formRequest [(str "q", str "abc"), (str "p", str "1")])
      (Ctx.start [(str "xabcx", Record.zero)]) rfl).2.1 (by decide)).2 rfl
      ⟨fun _ => ([str "<html>"], none)⟩ rfl rfl).1⟩

/-- C6 at `GET /api/?q=ab&p=1`. -/
theorem apiIndexHandler_dispatch_witness :
    (Ctx.start ([] : List (GoString × Record))).w.wroteHeader = none ∧
    ((formRequest [(str "q", str "ab"), (str "p", str "1")]).FormValue (str "q")).length < 3 ∧
    (formRequest [(str "q", str "ab"), (str "p", str "1")]).FormValue (str "p") = str "1" ∧
    (apiIndexHandler plainEnv memDB (formRequest [(str "q", str "ab"), (str "p", str "1")])
        (Ctx.start [])).w.status = 200 ∧
    (apiIndexHandler plainEnv memDB (formRequest [(str "q", str "ab"), (str "p", str "1")])
        (Ctx.start [])).calls = [⟨.getPaused, none⟩] :=
  ⟨rfl, by decide, by decide,
    ((apiIndexHandler_dispatch plainEnv memDB
      (formRequest [(str "q", str "ab"), (str "p", str "1")]) (Ctx.start []) rfl).2.1
      (by decide) (by decide)).1,
    ((apiIndexHandler_dispatch plainEnv memDB
      (formRequest [(str "q", str "ab"), (str "p", str "1")]) (Ctx.start []) rfl).2.1
      (by decide) (by decide)).2.2⟩

/-- C7 at a `PUT /api/abcd` with an empty body. -/
theorem apiPutHandler_stores_and_echoes_witness :
    (Ctx.start ([] : List (GoString × Record))).w.wroteHeader = none ∧
    4 ≤ (URLParam (keyRequest (str "abcd") []) (str "key")).length ∧
    plainEnv.decodeRecord (keyRequest (str "abcd") []).Body = .error .EOF ∧
    (apiPutHandler plainEnv memDB (keyRequest (str "abcd") []) (Ctx.start [])).calls
      = [⟨.put (str "abcd") (some ⟨false, []⟩), none⟩] ∧
    (apiPutHandler plainEnv memDB (keyRequest (str "abcd") []) (Ctx.start [])).w.status = 200 :=
  ⟨rfl, by decide, rfl,
    ((apiPutHandler_stores_and_echoes plainEnv memDB (keyRequest (str "abcd") []) (Ctx.start [])
      rfl (by decide)).2.1 rfl).1,
    (((apiPutHandler_stores_and_echoes plainEnv memDB (keyRequest (str "abcd") []) (Ctx.start [])
      rfl (by decide)).2.1 rfl).2.2 rfl).1⟩

/-- C9 (amended) at `DELETE /api/abcd` and at `GET /abcd` on a store holding
`abcd`. -/
theorem store_calls_per_request_witness :
    (Ctx.start [(str "abcd", Record.zero)]).w.wroteHeader = none ∧
    (Ctx.start [(str "abcd", Record.zero)]).calls = [] ∧
    (apiDeleteHandler memDB (keyRequest (str "abcd") [])
      (Ctx.start [(str "abcd", Record.zero)])).calls.length = 1 ∧
    (rootReadHandler plainEnv memDB (keyRequest (str "abcd") [])
      (Ctx.start [(str "abcd", Record.zero)])).calls.map (·.call)
      = [.get (str "abcd"), .keyCount] :=
  ⟨rfl, rfl,
    (store_calls_per_request plainEnv memDB (keyRequest (str "abcd") [])
      (Ctx.start [(str "abcd", Record.zero)]) rfl rfl).2.2.2.2.1,
    (store_calls_per_request plainEnv memDB (keyRequest (str "abcd") [])
      (Ctx.start [(str "abcd", Record.zero)]) rfl rfl).2.2.2.2.2.2⟩

end Nogo
